import Mathlib

/-!
# LUSID — formal model of the scene data model, JSON loader, ADM scene builder
# and sonoPleth transcoder

A shallow embedding of the Python sources in `src/`:

* `scene.py`  — the data model (`LusidScene` → `Frame` → node variants),
  time-unit helpers and the serializers (`to_dict`).
* `parser.py` — the fault-tolerant JSON loader (`parse_dict` and its
  node/frame sub-parsers).
* `xmlParser.py` — the dict-based ADM → LUSID scene builder
  (`adm_to_lusid_scene`) and its LFE-detection helper.
* `xml_etree_parser.py` — the end-to-end XML → LUSID scene builder
  (`parse_adm_xml_to_lusid_scene`) over an element-tree model.

Modelling conventions:

* Python floats are modelled by `ℚ`, with the non-finite values (`nan`,
  `inf`, `-inf`) represented explicitly in the JSON number type `JNum`
  where the code checks finiteness.  IEEE rounding of arithmetic is not
  modelled; the functions under study only move values around, convert
  units by exact ratios and round to 6 decimals.
* Python dicts that carry JSON data are association lists in insertion
  order with unique keys; `dict.get` is `List.lookup`, and dict update
  replaces in place / appends at the end like CPython.
* Functions that can raise an uncaught Python exception are modelled in
  `Except PyErr`, with `PyErr` naming the exception class raised.
* Side-channel diagnostics (`warnings.warn`) carry no data relevant to
  the returned values and are not modelled.
-/

-- The rational-number operations are `@[irreducible]` upstream for
-- performance; the concrete witnesses below evaluate the embedded
-- functions on rational data, which needs them unfoldable.
attribute [local semireducible] Rat.add Rat.sub Rat.mul Rat.inv

/-- Exception classes that the modelled code can raise. -/
inductive PyErr where
  | attributeError
  | typeError
  | valueError
  | overflowError
  deriving DecidableEq, Repr

/-- A Python/JSON number: a finite value (as an exact rational) or one of
the non-finite floats that Python's `json` module happily produces
(`NaN`, `Infinity`, `-Infinity`). -/
inductive JNum where
  | fin (q : ℚ)
  | nan
  | inf
  | ninf
  deriving DecidableEq, Repr

/-- JSON values as loaded by `json.load`.  Objects are association lists in
insertion order with unique keys (CPython dict semantics). -/
inductive Json where
  | null
  | bool (b : Bool)
  | num (n : JNum)
  | str (s : String)
  | arr (xs : List Json)
  | obj (fields : List (String × Json))
  deriving Repr

-- Structural equality on JSON values (needed because of the nested lists).
mutual

def Json.beq : Json → Json → Bool
  | .null, .null => true
  | .bool a, .bool b => a == b
  | .num a, .num b => a == b
  | .str a, .str b => a == b
  | .arr a, .arr b => Json.beqList a b
  | .obj a, .obj b => Json.beqFields a b
  | _, _ => false

def Json.beqList : List Json → List Json → Bool
  | [], [] => true
  | a :: as, b :: bs => Json.beq a b && Json.beqList as bs
  | _, _ => false

def Json.beqFields : List (String × Json) → List (String × Json) → Bool
  | [], [] => true
  | (k, v) :: as, (k', v') :: bs => k == k' && Json.beq v v' && Json.beqFields as bs
  | _, _ => false

end

mutual

theorem Json.beq_iff : ∀ a b : Json, Json.beq a b = true ↔ a = b
  | .null, b => by cases b <;> simp [Json.beq]
  | .bool a, b => by cases b <;> simp [Json.beq]
  | .num a, b => by cases b <;> simp [Json.beq]
  | .str a, b => by cases b <;> simp [Json.beq]
  | .arr a, b => by
      cases b <;> simp [Json.beq]
      exact Json.beqList_iff a _
  | .obj a, b => by
      cases b <;> simp [Json.beq]
      exact Json.beqFields_iff a _

theorem Json.beqList_iff : ∀ a b : List Json, Json.beqList a b = true ↔ a = b
  | [], b => by cases b <;> simp [Json.beqList]
  | x :: xs, b => by
      cases b with
      | nil => simp [Json.beqList]
      | cons y ys =>
        simp only [Json.beqList, Bool.and_eq_true, List.cons.injEq]
        rw [Json.beq_iff, Json.beqList_iff]

theorem Json.beqFields_iff :
    ∀ a b : List (String × Json), Json.beqFields a b = true ↔ a = b
  | [], b => by cases b <;> simp [Json.beqFields]
  | (k, v) :: xs, b => by
      cases b with
      | nil => simp [Json.beqFields]
      | cons y ys =>
        obtain ⟨k', v'⟩ := y
        simp only [Json.beqFields, Bool.and_eq_true, List.cons.injEq,
          Prod.mk.injEq, beq_iff_eq, Json.beq_iff, Json.beqFields_iff]

end

instance : DecidableEq Json := fun a b =>
  decidable_of_iff (Json.beq a b = true) (Json.beq_iff a b)

/-! ## Python primitive helpers (ASCII model) -/

/-- ASCII whitespace, as stripped by Python's `str.strip()` (the Unicode
whitespace classes beyond ASCII are not modelled). -/
def isPyWs (c : Char) : Bool :=
  c = ' ' || c = '\t' || c = '\n' || c = '\r' || c = '\x0b' || c = '\x0c'

/-- `str.strip()` on a character list. -/
def stripChars (cs : List Char) : List Char :=
  ((cs.dropWhile isPyWs).reverse.dropWhile isPyWs).reverse

/-- ASCII `str.lower()` on one character. -/
def lowChar (c : Char) : Char :=
  if 'A' ≤ c ∧ c ≤ 'Z' then Char.ofNat (c.toNat + 32) else c

/-- ASCII `str.lower()`. -/
def lowerChars (cs : List Char) : List Char := cs.map lowChar

def digitVal (c : Char) : Option Nat :=
  if '0' ≤ c ∧ c ≤ '9' then some (c.toNat - 48) else none

/-- Digit run with Python's single-underscore-between-digits rule
(`1_000` is valid, `1__0`, `_1`, `1_` are not). -/
def pyDigitsAux (acc : Nat) : List Char → Option Nat
  | [] => some acc
  | '_' :: c :: rest =>
    match digitVal c with
    | some d => pyDigitsAux (acc * 10 + d) rest
    | none => none
  | c :: rest =>
    match digitVal c with
    | some d => pyDigitsAux (acc * 10 + d) rest
    | none => none

def pyDigitsStart : List Char → Option Nat
  | c :: rest =>
    match digitVal c with
    | some d => pyDigitsAux d rest
    | none => none
  | [] => none

/-- Python `int(str)` (base 10): strip whitespace, optional sign, digits. -/
def pyIntOfChars (cs : List Char) : Option Int :=
  match stripChars cs with
  | '+' :: rest => (pyDigitsStart rest).map Int.ofNat
  | '-' :: rest => (pyDigitsStart rest).map (fun n => -(n : Int))
  | rest => (pyDigitsStart rest).map Int.ofNat

def pyIntOfString (s : String) : Option Int := pyIntOfChars s.data

/-- Greedy digit run for the float grammar: returns the value, the number of
digits consumed and the rest.  Underscores between digits are accepted. -/
def takeDigits (v k : Nat) : List Char → Nat × Nat × List Char
  | [] => (v, k, [])
  | '_' :: c :: rest =>
    if k ≠ 0 then
      match digitVal c with
      | some d => takeDigits (v * 10 + d) (k + 1) rest
      | none => (v, k, '_' :: c :: rest)
    else (v, k, '_' :: c :: rest)
  | c :: rest =>
    match digitVal c with
    | some d => takeDigits (v * 10 + d) (k + 1) rest
    | none => (v, k, c :: rest)

def pyExponentPart : List Char → Option Int
  | [] => some 0
  | 'e' :: rest => pyExponentSigned rest
  | 'E' :: rest => pyExponentSigned rest
  | _ => none
where
  pyExponentSigned : List Char → Option Int
  | '+' :: rest => pyExponentDigits rest |>.map Int.ofNat
  | '-' :: rest => pyExponentDigits rest |>.map (fun n => -(n : Int))
  | rest => pyExponentDigits rest |>.map Int.ofNat
  pyExponentDigits (cs : List Char) : Option Nat :=
    match takeDigits 0 0 cs with
    | (v, k, []) => if k = 0 then none else some v
    | _ => none

def pyFloatBody (cs : List Char) : Option ℚ :=
  let (ip, ik, r1) := takeDigits 0 0 cs
  match r1 with
  | '.' :: r2 =>
    let (fp, fk, r3) := takeDigits 0 0 r2
    if ik = 0 ∧ fk = 0 then none
    else
      (pyExponentPart r3).map fun e =>
        ((ip : ℚ) + (fp : ℚ) / ((10 : ℚ) ^ fk)) * (10 : ℚ) ^ (e : ℤ)
  | r2 =>
    if ik = 0 then none
    else (pyExponentPart r2).map fun e => (ip : ℚ) * (10 : ℚ) ^ (e : ℤ)

/-- Python `float(str)` restricted to finite decimal literals: strip, sign,
digits/point/exponent.  The `inf`/`nan` word forms are not modelled (none of
the embedded call sites is reached with them in the claims under study). -/
def pyFloatOfChars (cs : List Char) : Option ℚ :=
  match stripChars cs with
  | '+' :: rest => pyFloatBody rest
  | '-' :: rest => (pyFloatBody rest).map Neg.neg
  | rest => pyFloatBody rest

def pyFloatOfString (s : String) : Option ℚ := pyFloatOfChars s.data

/-- Python `int(float)`: truncation toward zero. -/
def pyTruncRat (q : ℚ) : Int :=
  if 0 ≤ q then Rat.floor q else -Rat.floor (-q)

/-- Round-half-to-even on a rational, yielding an integer
(Python's `round` tie rule). -/
def roundHalfEven (x : ℚ) : Int :=
  let f := Rat.floor x
  let r := x - (f : ℚ)
  if r < 1/2 then f
  else if 1/2 < r then f + 1
  else if f % 2 = 0 then f else f + 1

/-- `round(x, 6)` as used on times and coordinates.  (On binary floats the
tie cases differ microscopically; the claims under study use values exact
at 6 decimals.) -/
def pyRound6 (q : ℚ) : ℚ := (roundHalfEven (q * 1000000) : ℚ) / 1000000

/-- Python `str()` of a JSON value, as applied to a node `id`.  String,
integer, boolean and null reprs are exact; the repr of non-integer floats
and containers (whose decimal shortest-form printing is not modelled)
is replaced by a marker that fails the node-id pattern exactly as the
real repr of a container would. -/
def pyStrOfJson : Json → String
  | .str s => s
  | .null => "None"
  | .bool true => "True"
  | .bool false => "False"
  | .num (.fin q) => if q.den = 1 then toString q.num else "<float repr>"
  | .num .nan => "nan"
  | .num .inf => "inf"
  | .num .ninf => "-inf"
  | .arr _ => "<list repr>"
  | .obj _ => "<dict repr>"

/-- Python `str.split(sep)` for a one-character separator (keeps empty
pieces, like `"".split(".") == [""]`). -/
def splitChar (sep : Char) : List Char → List (List Char)
  | [] => [[]]
  | c :: rest =>
    match splitChar sep rest with
    | [] => [[c]]
    | h :: t => if c = sep then [] :: h :: t else (c :: h) :: t

/-- Substring test (`needle in haystack` on strings). -/
def charsLead : List Char → List Char → Bool
  | [], _ => true
  | _ :: _, [] => false
  | a :: as, b :: bs => a == b && charsLead as bs

def charsContains (needle : List Char) : List Char → Bool
  | [] => charsLead needle []
  | c :: rest => charsLead needle (c :: rest) || charsContains needle rest

/-- CPython dict assignment `d[k] = v` on an insertion-ordered association
list: replace in place if the key exists, else append. -/
def dictSet {β : Type} [DecidableEq β] (d : List (β × Json)) (k : β) (v : Json) :
    List (β × Json) :=
  if (d.lookup k).isSome then
    d.map fun kv => if kv.1 = k then (k, v) else kv
  else d ++ [(k, v)]

/-- `d.update(kvs)` on insertion-ordered association lists. -/
def dictUpdate (d kvs : List (String × Json)) : List (String × Json) :=
  kvs.foldl (fun acc kv => dictSet acc kv.1 kv.2) d

/-- `dict.get(k)`: `None` both when the key is absent and when the stored
value is JSON `null` (both give Python `None`). -/
def dgetOpt (fields : List (String × Json)) (k : String) : Option Json :=
  match fields.lookup k with
  | some .null => none
  | v => v

/-! ## `scene.py` — data model, time-unit helpers, serializers -/

/-- `TIMEUNIT_ALIASES` (scene.py): the literal alias dict, as a lookup. -/
def TIMEUNIT_ALIASES : String → Option String
  | "seconds" => some "seconds"
  | "s" => some "seconds"
  | "samples" => some "samples"
  | "samp" => some "samples"
  | "milliseconds" => some "milliseconds"
  | "ms" => some "milliseconds"
  | _ => none

/-- `normalize_time_unit` (scene.py): resolve aliases after
`raw.lower().strip()`; raises `ValueError` on an unknown unit. -/
def normalize_time_unit (raw : String) : Except PyErr String :=
  match TIMEUNIT_ALIASES (String.mk (stripChars (lowerChars raw.data))) with
  | some canonical => .ok canonical
  | none => .error .valueError

/-- `time_to_seconds` (scene.py).  Raises `ValueError` when the unit is
`samples` without a positive sample rate, or is not canonical. -/
def time_to_seconds (value : ℚ) (time_unit : String) (sample_rate : Option Int) :
    Except PyErr ℚ :=
  if time_unit = "seconds" then .ok value
  else if time_unit = "milliseconds" then .ok (value * (1/1000))
  else if time_unit = "samples" then
    match sample_rate with
    | some sr => if sr ≤ 0 then .error .valueError else .ok (value / (sr : ℚ))
    | none => .error .valueError
  else .error .valueError

structure AudioObjectNode where
  id : String
  cart : List ℚ
  gain : ℚ := 1
  deriving DecidableEq, Repr

structure DirectSpeakerNode where
  id : String
  cart : List ℚ
  speakerLabel : String := ""
  channelID : String := ""
  deriving DecidableEq, Repr

structure LFENode where
  id : String
  deriving DecidableEq, Repr

structure SpectralFeaturesNode where
  id : String
  data : List (String × Json) := []
  deriving DecidableEq, Repr

structure AgentStateNode where
  id : String
  data : List (String × Json) := []
  deriving DecidableEq, Repr

/-- The `Node` union of `scene.py`. -/
inductive Node where
  | audioObject (n : AudioObjectNode)
  | directSpeaker (n : DirectSpeakerNode)
  | lfe (n : LFENode)
  | spectralFeatures (n : SpectralFeaturesNode)
  | agentState (n : AgentStateNode)
  deriving DecidableEq, Repr

def Node.id : Node → String
  | .audioObject n => n.id
  | .directSpeaker n => n.id
  | .lfe n => n.id
  | .spectralFeatures n => n.id
  | .agentState n => n.id

/-- The `type` property of each node class. -/
def Node.type : Node → String
  | .audioObject _ => "audio_object"
  | .directSpeaker _ => "direct_speaker"
  | .lfe _ => "LFE"
  | .spectralFeatures _ => "spectral_features"
  | .agentState _ => "agent_state"

/-- The `group` property: `int(self.id.split(".")[0])`.  The source raises
on an id that does not parse; every node these accessors are applied to in
the code under study carries a valid `"<int>.<int>"` id, on which this
total version agrees with the source. -/
def Node.group (n : Node) : Int :=
  (pyIntOfChars (((splitChar '.' n.id.data).headD []))).getD 0

def AudioObjectNode.to_dict (n : AudioObjectNode) : Json :=
  .obj ([("id", .str n.id), ("type", .str "audio_object"),
         ("cart", .arr (n.cart.map fun q => .num (.fin q)))] ++
        (if n.gain ≠ 1 then [("gain", .num (.fin n.gain))] else []))

def DirectSpeakerNode.to_dict (n : DirectSpeakerNode) : Json :=
  .obj ([("id", .str n.id), ("type", .str "direct_speaker"),
         ("cart", .arr (n.cart.map fun q => .num (.fin q)))] ++
        (if n.speakerLabel ≠ "" then [("speakerLabel", .str n.speakerLabel)] else []) ++
        (if n.channelID ≠ "" then [("channelID", .str n.channelID)] else []))

def LFENode.to_dict (n : LFENode) : Json :=
  .obj [("id", .str n.id), ("type", .str "LFE")]

def SpectralFeaturesNode.to_dict (n : SpectralFeaturesNode) : Json :=
  .obj (dictUpdate [("id", .str n.id), ("type", .str "spectral_features")] n.data)

def AgentStateNode.to_dict (n : AgentStateNode) : Json :=
  .obj (dictUpdate [("id", .str n.id), ("type", .str "agent_state")] n.data)

def Node.to_dict : Node → Json
  | .audioObject n => n.to_dict
  | .directSpeaker n => n.to_dict
  | .lfe n => n.to_dict
  | .spectralFeatures n => n.to_dict
  | .agentState n => n.to_dict

/-- `Frame` (scene.py): one timestep snapshot. -/
structure Frame where
  time : ℚ
  nodes : List Node := []
  deriving DecidableEq, Repr

/-- `Frame.get_nodes_by_type`. -/
def Frame.get_nodes_by_type (f : Frame) (node_type : String) : List Node :=
  f.nodes.filter fun n => n.type == node_type

def Frame.to_dict (f : Frame) : Json :=
  .obj [("time", .num (.fin f.time)), ("nodes", .arr (f.nodes.map Node.to_dict))]

/-- `LusidScene` (scene.py): the five dataclass fields.  (`duration` is a
read-only property computed from `frames`, not a field.) -/
structure LusidScene where
  version : String := "0.5"
  frames : List Frame := []
  time_unit : String := "seconds"
  sample_rate : Option Int := none
  metadata : List (String × Json) := []
  deriving DecidableEq, Repr

def LusidScene.frame_count (s : LusidScene) : Nat := s.frames.length

instance {ε α : Type} [DecidableEq ε] [DecidableEq α] :
    DecidableEq (Except ε α) := fun a b =>
  match a, b with
  | .ok x, .ok y => decidable_of_iff (x = y) (by simp)
  | .error e, .error f => decidable_of_iff (e = f) (by simp)
  | .ok _, .error _ => isFalse fun h => Except.noConfusion h
  | .error _, .ok _ => isFalse fun h => Except.noConfusion h

/-- Ascending sorted list of distinct values (`sorted(set(...))`). -/
def sortedDistinctInt (l : List Int) : List Int :=
  (l.dedup).foldl (fun acc x => insertIntAsc x acc) []
where
  insertIntAsc (a : Int) : List Int → List Int
  | [] => [a]
  | b :: bs => if a < b then a :: b :: bs else b :: insertIntAsc a bs

/-- `LusidScene.audio_object_groups`. -/
def LusidScene.audio_object_groups (s : LusidScene) : List Int :=
  sortedDistinctInt
    (s.frames.flatMap fun f => (f.get_nodes_by_type "audio_object").map Node.group)

/-- `LusidScene.direct_speaker_groups`. -/
def LusidScene.direct_speaker_groups (s : LusidScene) : List Int :=
  sortedDistinctInt
    (s.frames.flatMap fun f => (f.get_nodes_by_type "direct_speaker").map Node.group)

/-- `LusidScene.has_lfe`. -/
def LusidScene.has_lfe (s : LusidScene) : Bool :=
  s.frames.any fun f => ¬(f.get_nodes_by_type "LFE").isEmpty

/-- `LusidScene.to_dict`: `sampleRate` only when present, `metadata` only
when non-empty (Python truthiness of the dict). -/
def LusidScene.to_dict (s : LusidScene) : Json :=
  .obj ([("version", .str s.version), ("timeUnit", .str s.time_unit),
         ("frames", .arr (s.frames.map Frame.to_dict))] ++
        (match s.sample_rate with
         | some sr => [("sampleRate", .num (.fin (sr : ℚ)))]
         | none => []) ++
        (if s.metadata ≠ [] then [("metadata", .obj s.metadata)] else []))

/-! ## `parser.py` — the fault-tolerant JSON loader -/

/-- `_is_valid_node_id` (parser.py): split on `"."`, exactly two parts,
both accepted by `int()`. -/
def _is_valid_node_id (raw : String) : Bool :=
  match splitChar '.' raw.data with
  | [a, b] => (pyIntOfChars a).isSome && (pyIntOfChars b).isSome
  | _ => false

/-- `_is_finite` (parser.py): `isinstance(v, (int, float)) and
math.isfinite(v)`.  Python `bool` is an `int` subclass, so booleans pass. -/
def _is_finite : Json → Bool
  | .bool _ => true
  | .num (.fin _) => true
  | _ => false

/-- `float(v)` on a value that passed `_is_finite` (booleans become 0/1);
junk value 0 on the unreachable cases. -/
def jsonFloat : Json → ℚ
  | .bool b => if b then 1 else 0
  | .num (.fin q) => q
  | _ => 0

/-- `_parse_audio_object` (parser.py).  `x, y, z = cart[0], cart[1],
cart[2]` is modelled with guarded indexing (the length check has already
ensured three entries exist). -/
def _parse_audio_object (node_id : String) (raw : List (String × Json)) :
    Option Node :=
  match dgetOpt raw "cart" with
  | none => none
  | some cart =>
    match cart with
    | .arr xs =>
      if xs.length < 3 then none
      else
        let x := xs.getD 0 .null
        let y := xs.getD 1 .null
        let z := xs.getD 2 .null
        if _is_finite x && _is_finite y && _is_finite z then
          let gain :=
            match raw.lookup "gain" with
            | none => Json.num (.fin 1)
            | some g => g
          let gainVal := if _is_finite gain then jsonFloat gain else 1
          some (.audioObject
            { id := node_id, cart := [jsonFloat x, jsonFloat y, jsonFloat z],
              gain := gainVal })
        else none
    | _ => none

/-- `_parse_spectral_features` (parser.py): every field except `id` and
`type`, in insertion order. -/
def _parse_spectral_features (node_id : String) (raw : List (String × Json)) :
    Node :=
  .spectralFeatures
    { id := node_id, data := raw.filter fun kv => kv.1 ≠ "id" ∧ kv.1 ≠ "type" }

def _parse_agent_state (node_id : String) (raw : List (String × Json)) : Node :=
  .agentState
    { id := node_id, data := raw.filter fun kv => kv.1 ≠ "id" ∧ kv.1 ≠ "type" }

/-- `_parse_node` (parser.py).  Note the dispatch has **no
`direct_speaker` branch**: that tag falls through to the unknown-type
case and the node is dropped. -/
def _parse_node (raw : List (String × Json)) : Option Node :=
  match dgetOpt raw "id" with
  | none => none
  | some rawId =>
    let node_id := pyStrOfJson rawId
    if ¬_is_valid_node_id node_id then none
    else
      match dgetOpt raw "type" with
      | none => none
      | some node_type =>
        if node_type = .str "audio_object" then _parse_audio_object node_id raw
        else if node_type = .str "LFE" then some (.lfe { id := node_id })
        else if node_type = .str "spectral_features" then
          some (_parse_spectral_features node_id raw)
        else if node_type = .str "agent_state" then
          some (_parse_agent_state node_id raw)
        else none

/-- The `nodes` list a frame dict yields: absent / `null` / non-list all
become the empty list. -/
def rawNodesOf (raw : List (String × Json)) : List Json :=
  match raw.lookup "nodes" with
  | some (.arr l) => l
  | _ => []

/-- One entry of a frame's `nodes` list: non-dict entries are skipped,
dict entries go through `_parse_node`. -/
def parseNodeEntry : Json → Option Node
  | .obj nf => _parse_node nf
  | _ => none

/-- One step of the duplicate-id loop of `_parse_frame`: `seen_ids` check,
filter-out on duplicate, append. -/
def frameStep : List Node × List String → Node → List Node × List String
  | (nodes, seen), node =>
    let nodes' :=
      if node.id ∈ seen then nodes.filter fun n => n.id ≠ node.id else nodes
    (nodes' ++ [node], node.id :: seen)

/-- `_parse_frame` (parser.py).  The `index` argument is only used for the
warning text in the source. -/
def _parse_frame (raw : List (String × Json)) (_index : Nat) : Option Frame :=
  match dgetOpt raw "time" with
  | none => none
  | some time_val =>
    if ¬_is_finite time_val then none
    else
      let entries := (rawNodesOf raw).filterMap parseNodeEntry
      let nodes := (entries.foldl frameStep ([], [])).1
      some { time := jsonFloat time_val, nodes := nodes }

/-- The `sampleRate` field policy of `parse_dict`.  `int(inf)` raises
`OverflowError` and `int(nan)` raises `ValueError` in Python, and the
finiteness of `sampleRate` is *not* checked before `int()` is applied;
`-inf` fails the `> 0` test first and is merely ignored. -/
def parseSampleRate (v : Option Json) : Except PyErr (Option Int) :=
  match v with
  | none => .ok none
  | some (.bool b) => if b then .ok (some 1) else .ok none
  | some (.num (.fin q)) => if q ≤ 0 then .ok none else .ok (some (pyTruncRat q))
  | some (.num .inf) => .error .overflowError
  | some (.num .nan) => .error .valueError
  | some (.num .ninf) => .ok none
  | some _ => .ok none

/-- Stable insertion into a time-ascending frame list (a new frame goes
after all frames with an equal or smaller time). -/
def insertFrameAsc (a : Frame) : List Frame → List Frame
  | [] => [a]
  | b :: bs => if a.time < b.time then a :: b :: bs else b :: insertFrameAsc a bs

/-- `frames.sort(key=lambda f: f.time)` — a stable ascending sort. -/
def sortFramesByTime (l : List Frame) : List Frame :=
  l.foldl (fun acc f => insertFrameAsc f acc) []

/-- `parse_dict` (parser.py), applied to the fields of a JSON object.
Total except for the `sampleRate` coercion (see `parseSampleRate`). -/
def parse_dict (raw : List (String × Json)) : Except PyErr LusidScene := do
  -- version
  let version :=
    match dgetOpt raw "version" with
    | none => "0.5"
    | some v => pyStrOfJson v
  -- timeUnit (get with default "seconds"; a JSON null becomes Python None,
  -- whose str() is "None" and fails alias resolution, defaulting to seconds)
  let raw_time_unit :=
    match raw.lookup "timeUnit" with
    | none => "seconds"
    | some v => pyStrOfJson v
  let time_unit :=
    match normalize_time_unit raw_time_unit with
    | .ok u => u
    | .error _ => "seconds"
  -- sampleRate
  let sample_rate ← parseSampleRate (dgetOpt raw "sampleRate")
  -- metadata
  let metadata :=
    match raw.lookup "metadata" with
    | none => []
    | some (.obj m) => m
    | some _ => []
  -- frames
  let raw_frames :=
    match raw.lookup "frames" with
    | some (.arr l) => l
    | _ => []
  let frames :=
    (raw_frames.enum.filterMap fun iv =>
      match iv.2 with
      | .obj rf => _parse_frame rf iv.1
      | _ => none)
  let frames := sortFramesByTime frames
  return { version := version, frames := frames, time_unit := time_unit,
           sample_rate := sample_rate, metadata := metadata }

/-- A JSON value handed to `parse_dict`: Python evaluates `raw.get(...)`,
which raises `AttributeError` unless the value is a dict. -/
def parse_json_value : Json → Except PyErr LusidScene
  | .obj fields => parse_dict fields
  | _ => .error .attributeError

/-! ## `xmlParser.py` — dict-based ADM → LUSID scene builder -/

/-- `_DEV_LFE_HARDCODED` (xmlParser.py / xml_etree_parser.py): module-level
developer flag.  `True`: LFE is the 4th DirectSpeaker; `False`: label-based
detection. -/
def _DEV_LFE_HARDCODED : Bool := true

/-- One position block of an object channel (the dict produced by the
extractor; the builder reads `rtime`, `x`, `y`, `z`). -/
structure Block where
  rtime : String := "00:00:00.00000"
  duration : String := "00:00:00.00000"
  x : ℚ := 0
  y : ℚ := 0
  z : ℚ := 0
  channelID : Option String := none
  cartesian : Option Int := none
  width : Option (Option ℚ) := none
  depth : Option (Option ℚ) := none
  height : Option (Option ℚ) := none
  deriving DecidableEq, Repr

/-- One direct-speaker record (the dict produced by the extractor). -/
structure SpeakerInfo where
  channelID : String := ""
  channelName : String := ""
  blockID : String := ""
  x : ℚ := 0
  y : ℚ := 0
  z : ℚ := 0
  speakerLabel : String := ""
  cartesian : Int := 1
  deriving DecidableEq, Repr

/-- One entry of the `containsAudio` channel list: `channel_index` (absent
entries are skipped) and `contains_audio` (defaulting to false). -/
structure CAChannel where
  channel_index : Option Int := none
  contains_audio : Bool := false
  deriving DecidableEq, Repr

/-- The `containsAudio` data: `contains_audio.get("channels", [])`. -/
structure ContainsAudio where
  channels : List CAChannel := []
  deriving DecidableEq, Repr

/-- Dict assignment on an `Int → Bool` association list. -/
def audioMapSet (m : List (Int × Bool)) (k : Int) (b : Bool) : List (Int × Bool) :=
  if (m.lookup k).isSome then
    m.map fun kv => if kv.1 = k then (k, b) else kv
  else m ++ [(k, b)]

/-- `_build_channel_audio_map` (xmlParser.py): 0-indexed channel →
contains-audio. -/
def _build_channel_audio_map (contains_audio : ContainsAudio) : List (Int × Bool) :=
  contains_audio.channels.foldl
    (fun m ch =>
      match ch.channel_index with
      | some idx => audioMapSet m idx ch.contains_audio
      | none => m)
    []

/-- `audio_map.get(i, True)`. -/
def audioGet (m : List (Int × Bool)) (i : Int) : Bool :=
  match m.lookup i with
  | some b => b
  | none => true

/-- `_parse_timecode_to_seconds` (identical in xmlParser.py and
xml_etree_parser.py): `HH:MM:SS.fffff` → seconds, defaulting to `0.0`
with a warning when the split/int/float conversion fails. -/
def _parse_timecode_to_seconds (timecode : String) : ℚ :=
  match splitChar ':' timecode.data with
  | [hs, ms, ss] =>
    match pyIntOfChars hs, pyIntOfChars ms, pyFloatOfChars ss with
    | some h, some m, some s => (h : ℚ) * 3600 + (m : ℚ) * 60 + s
    | _, _, _ => 0
  | _ => 0

/-- `_is_lfe_channel` (identical logic in xmlParser.py and
xml_etree_parser.py).  The first argument models the module-level
`_DEV_LFE_HARDCODED` flag the source reads. -/
def _is_lfe_channel (devLfeHardcoded : Bool) (speaker_name : String)
    (speaker_data : SpeakerInfo) (channel_index_1based : Nat) : Bool :=
  if devLfeHardcoded then channel_index_1based == 4
  else
    charsContains "lfe".data (lowerChars speaker_data.speakerLabel.data) ||
    charsContains "lfe".data (lowerChars speaker_name.data)

/-- `f"{g}.1"` for a group number. -/
def mkNodeId (g : Nat) : String := toString g ++ ".1"

/-- The DIRECT SPEAKERS loop of `adm_to_lusid_scene` /
`parse_adm_xml_to_lusid_scene`: walk the records in document order with the
1-based channel counter, skip silent channels (group number still consumed),
emit an LFE or DirectSpeaker node with hierarchy `.1`. -/
def buildStaticNodes (flag : Bool) (audio_map : List (Int × Bool)) :
    List (String × SpeakerInfo) → Nat → List Node
  | [], _ => []
  | (speaker_name, speaker_info) :: rest, ch =>
    let channel_1based := ch + 1
    let tail := buildStaticNodes flag audio_map rest channel_1based
    if ¬audioGet audio_map ((channel_1based : Int) - 1) then tail
    else if _is_lfe_channel flag speaker_name speaker_info channel_1based then
      .lfe { id := mkNodeId channel_1based } :: tail
    else
      .directSpeaker
        { id := mkNodeId channel_1based,
          cart := [speaker_info.x, speaker_info.y, speaker_info.z],
          speakerLabel := speaker_info.speakerLabel,
          channelID := speaker_info.channelID } :: tail

/-- The insertion-ordered `time_to_nodes` mapping of the builders. -/
abbrev TimeMap := List (ℚ × List Node)

/-- `time_to_nodes.setdefault(t, []).append(node)`. -/
def timeMapAdd (m : TimeMap) (t : ℚ) (n : Node) : TimeMap :=
  if (m.lookup t).isSome then
    m.map fun kv => if kv.1 = t then (kv.1, kv.2 ++ [n]) else kv
  else m ++ [(t, [n])]

/-- One object channel's position blocks inserted into the time map. -/
def insertBlocks (obj_group : Nat) (blocks : List Block) (m : TimeMap) : TimeMap :=
  blocks.foldl
    (fun m block =>
      timeMapAdd m (_parse_timecode_to_seconds block.rtime)
        (.audioObject
          { id := mkNodeId obj_group, cart := [block.x, block.y, block.z] }))
    m

/-- The AUDIO OBJECTS loop of the builders: objects with no blocks are
skipped *before* group assignment; the group counter advances for every
remaining object, including silent ones (whose nodes are skipped). -/
def buildObjectTimeMap (audio_map : List (Int × Bool)) (num_direct_speakers : Nat) :
    List (String × List Block) → Nat → TimeMap → TimeMap
  | [], _, m => m
  | (_obj_name, blocks) :: rest, group_counter, m =>
    if blocks.isEmpty then buildObjectTimeMap audio_map num_direct_speakers rest group_counter m
    else
      let obj_group := group_counter
      -- obj_channel_0based = num_direct_speakers + (obj_group - num_direct_speakers - 1)
      let obj_channel_0based : Int := (num_direct_speakers : Int) + ((obj_group : Int) - (num_direct_speakers : Int) - 1)
      if ¬audioGet audio_map obj_channel_0based then
        buildObjectTimeMap audio_map num_direct_speakers rest (group_counter + 1) m
      else
        buildObjectTimeMap audio_map num_direct_speakers rest (group_counter + 1)
          (insertBlocks obj_group blocks m)

/-- Stable ascending insertion for the `sorted(time_to_nodes.keys())` step. -/
def insertRatAsc (a : ℚ) : List ℚ → List ℚ
  | [] => [a]
  | b :: bs => if a < b then a :: b :: bs else b :: insertRatAsc a bs

def sortRats (l : List ℚ) : List ℚ :=
  l.foldl (fun acc x => insertRatAsc x acc) []

/-- The BUILD FRAMES section of the builders: one frame per sorted time
value with a non-empty node list, time rounded to 6 decimals. -/
def buildFramesFromMap (m : TimeMap) : List Frame :=
  (sortRats (m.map Prod.fst)).filterMap fun t =>
    let nodes := (m.lookup t).getD []
    if nodes.isEmpty then none else some { time := pyRound6 t, nodes := nodes }

/-- `int(global_data.get("SampleRate", 48000))`: raises `ValueError` when
the `SampleRate` text does not parse as an int. -/
def parseGlobalSampleRate (global_data : List (String × String)) :
    Except PyErr Int :=
  match global_data.lookup "SampleRate" with
  | none => .ok 48000
  | some s =>
    match pyIntOfString s with
    | some n => .ok n
    | none => .error .valueError

/-- `adm_to_lusid_scene` (xmlParser.py).  The first argument models the
module-level `_DEV_LFE_HARDCODED` flag; the source reads the global, so the
shipped behaviour is `adm_to_lusid_scene _DEV_LFE_HARDCODED ...`. -/
def adm_to_lusid_scene (devLfeHardcoded : Bool)
    (object_data : List (String × List Block))
    (direct_speaker_data : List (String × SpeakerInfo))
    (global_data : List (String × String))
    (contains_audio : ContainsAudio) : Except PyErr LusidScene := do
  let sample_rate ← parseGlobalSampleRate global_data
  let duration_str := (global_data.lookup "Duration").getD ""
  let audio_map := _build_channel_audio_map contains_audio
  let metadata : List (String × Json) :=
    [("sourceFormat", .str "ADM")] ++
    (if duration_str ≠ "" then [("duration", .str duration_str)] else []) ++
    (match global_data.lookup "Format" with
     | some f => if f ≠ "" then [("format", .str f)] else []
     | none => [])
  let num_direct_speakers := direct_speaker_data.length
  let static_nodes := buildStaticNodes devLfeHardcoded audio_map direct_speaker_data 0
  -- time_to_nodes.setdefault(0.0, []).extend(static_nodes)
  let time_to_nodes : TimeMap := [(0, static_nodes)]
  let time_to_nodes :=
    buildObjectTimeMap audio_map num_direct_speakers object_data
      (num_direct_speakers + 1) time_to_nodes
  let frames := buildFramesFromMap time_to_nodes
  return { version := "0.5", frames := frames, time_unit := "seconds",
           sample_rate := some sample_rate, metadata := metadata }

/-! ## `transcoder.py` — LUSID → sonoPleth renderInstructions -/

/-- One keyframe of a render track; the synthetic LFE keyframe has no
`cart` entry. -/
structure Keyframe where
  time : ℚ
  cart : Option (List ℚ) := none
  deriving DecidableEq, Repr

/-- The renderInstructions structure. -/
structure RenderOutput where
  sampleRate : Int
  timeUnit : String
  sources : List (String × List Keyframe)
  deriving DecidableEq, Repr

/-- `sources.setdefault(name, []).append(kf)`. -/
def sourcesAdd (sources : List (String × List Keyframe)) (name : String)
    (kf : Keyframe) : List (String × List Keyframe) :=
  if (sources.lookup name).isSome then
    sources.map fun kv => if kv.1 = name then (kv.1, kv.2 ++ [kf]) else kv
  else sources ++ [(name, [kf])]

/-- `sources["LFE"] = [...]` (plain dict assignment). -/
def sourcesSet (sources : List (String × List Keyframe)) (name : String)
    (v : List Keyframe) : List (String × List Keyframe) :=
  if (sources.lookup name).isSome then
    sources.map fun kv => if kv.1 = name then (kv.1, v) else kv
  else sources ++ [(name, v)]

/-- Loop state of `transcode_to_sonopleth`: the track map, the LFE flag
and the (dead, per the spec's open question) last-known-cart bookkeeping. -/
structure TState where
  sources : List (String × List Keyframe) := []
  has_lfe : Bool := false
  last_known_cart : List (Int × List ℚ) := []
  deriving Repr

def lastKnownSet (m : List (Int × List ℚ)) (k : Int) (v : List ℚ) :
    List (Int × List ℚ) :=
  if (m.lookup k).isSome then
    m.map fun kv => if kv.1 = k then (k, v) else kv
  else m ++ [(k, v)]

/-- The per-node body of the frame loop. -/
def transcodeNode (time_sec : ℚ) (st : TState) : Node → TState
  | .audioObject n =>
    let group := Node.group (.audioObject n)
    let src_name := "src_" ++ toString group
    let keyframe : Keyframe :=
      { time := pyRound6 time_sec, cart := some (n.cart.map pyRound6) }
    { st with
      sources := sourcesAdd st.sources src_name keyframe,
      last_known_cart := lastKnownSet st.last_known_cart group n.cart }
  | .lfe _ => { st with has_lfe := true }
  | _ => st

/-- The per-frame body: frames whose time cannot be converted are skipped
with a warning. -/
def transcodeFrame (time_unit : String) (sample_rate : Option Int)
    (st : TState) (frame : Frame) : TState :=
  match time_to_seconds frame.time time_unit sample_rate with
  | .error _ => st
  | .ok time_sec => frame.nodes.foldl (transcodeNode time_sec) st

/-- `transcode_to_sonopleth` (transcoder.py).  `scene.sample_rate if
scene.sample_rate else output_sample_rate` is Python truthiness: both
`None` and `0` fall back to the requested rate. -/
def transcode_to_sonopleth (scene : LusidScene)
    (output_sample_rate : Int := 48000) : RenderOutput :=
  let sr :=
    match scene.sample_rate with
    | some n => if n = 0 then output_sample_rate else n
    | none => output_sample_rate
  let st := scene.frames.foldl
    (transcodeFrame scene.time_unit scene.sample_rate) {}
  let sources :=
    if st.has_lfe then sourcesSet st.sources "LFE" [{ time := 0 }]
    else st.sources
  { sampleRate := sr, timeUnit := "seconds", sources := sources }

/-! ## `xml_etree_parser.py` — XML element-tree model and end-to-end builder -/

/-- An `xml.etree.ElementTree` element: tag, attributes, text, children. -/
inductive XmlElem where
  | mk (tag : String) (attrib : List (String × String)) (text : Option String)
      (children : List XmlElem)

def XmlElem.tag : XmlElem → String
  | .mk t _ _ _ => t

def XmlElem.attrib : XmlElem → List (String × String)
  | .mk _ a _ _ => a

def XmlElem.text : XmlElem → Option String
  | .mk _ _ x _ => x

def XmlElem.children : XmlElem → List XmlElem
  | .mk _ _ _ cs => cs

/-- `attrib.get(k, default)`. -/
def XmlElem.attr (e : XmlElem) (k : String) (dflt : String) : String :=
  (e.attrib.lookup k).getD dflt

mutual

/-- The subtree of an element in document order, the element included
(`Element.iter()` order). -/
def XmlElem.subtree : XmlElem → List XmlElem
  | .mk t a x cs => .mk t a x cs :: XmlElem.subtreeList cs

def XmlElem.subtreeList : List XmlElem → List XmlElem
  | [] => []
  | c :: cs => XmlElem.subtree c ++ XmlElem.subtreeList cs

end

/-- `e.find(tag)`: first **direct child** with the tag. -/
def XmlElem.findChild (e : XmlElem) (t : String) : Option XmlElem :=
  e.children.find? fun c => c.tag == t

/-- `e.findall(tag)`: all direct children with the tag. -/
def XmlElem.findAllChildren (e : XmlElem) (t : String) : List XmlElem :=
  e.children.filter fun c => c.tag == t

/-- `e.find(".//tag")`: first element with the tag among the descendants
(document order, the element itself excluded). -/
def XmlElem.findDesc (e : XmlElem) (t : String) : Option XmlElem :=
  (XmlElem.subtreeList e.children).find? fun c => c.tag == t

/-- `e.iter(tag)`: the element and its descendants with the tag, in
document order. -/
def XmlElem.iterTag (e : XmlElem) (t : String) : List XmlElem :=
  (XmlElem.subtree e).filter fun c => c.tag == t

/-- `EBU_NS` (xml_etree_parser.py). -/
def EBU_NS : String := "urn:ebu:metadata-schema:ebuCore_2016"

/-- `_NS_PREFIX`: ElementTree writes namespaced tags as `{ns}tag`. -/
def NS_PREFIX : String := "\x7b" ++ EBU_NS ++ "\x7d"

/-- `_ebu(tag)`. -/
def ebuTag (tag : String) : String := NS_PREFIX ++ tag

/-- `_find_ebu_root` (xml_etree_parser.py): direct root match, `<aXML>`
wrapper (with and without namespace), then a full-document fallback. -/
def _find_ebu_root (root : XmlElem) : Option XmlElem :=
  if root.tag = ebuTag "ebuCoreMain" ∨ root.tag = "ebuCoreMain" then some root
  else
    match root.findDesc "aXML" with
    | some axml =>
      match axml.findChild (ebuTag "ebuCoreMain") with
      | some ebu_root => some ebu_root
      | none =>
        match axml.findChild "ebuCoreMain" with
        | some ebu_root => some ebu_root
        | none => root.findDesc (ebuTag "ebuCoreMain")
    | none => root.findDesc (ebuTag "ebuCoreMain")

/-- `extract_global_data` (xml_etree_parser.py): tag → stripped text of the
children of the first `<Technical>` descendant; empty when absent.
Duplicate tags overwrite (dict assignment). -/
def extract_global_data (root : XmlElem) : List (String × String) :=
  match root.findDesc "Technical" with
  | none => []
  | some technical =>
    technical.children.foldl
      (fun m elem =>
        let tag := String.mk (stripChars elem.tag.data)
        let text :=
          match elem.text with
          | some s => String.mk (stripChars s.data)
          | none => ""
        if (m.lookup tag).isSome then
          m.map fun kv => if kv.1 = tag then (tag, text) else kv
        else m ++ [(tag, text)])
      []

/-- `_get_position_coords` (xml_etree_parser.py): fold the `position`
children by their `coordinate` attribute; `float(pos.text)` raises
`ValueError` on unparseable text (empty/missing text gives 0.0). -/
def _get_position_coords (block : XmlElem) : Except PyErr (ℚ × ℚ × ℚ) :=
  (block.findAllChildren (ebuTag "position")).foldlM
    (fun (xyz : ℚ × ℚ × ℚ) pos => do
      let coord := pos.attr "coordinate" ""
      let value ←
        match pos.text with
        | some s =>
          if s = "" then Except.ok (0 : ℚ)
          else
            match pyFloatOfString s with
            | some q => Except.ok q
            | none => Except.error PyErr.valueError
        | none => Except.ok (0 : ℚ)
      if coord = "X" then pure (value, xyz.2.1, xyz.2.2)
      else if coord = "Y" then pure (xyz.1, value, xyz.2.2)
      else if coord = "Z" then pure (xyz.1, xyz.2.1, value)
      else pure xyz)
    (0, 0, 0)

/-- Text of an optional child used as `elem is not None and elem.text`. -/
def childText (e : XmlElem) (t : String) : Option String :=
  match e.findChild t with
  | some c => c.text
  | none => none

/-- `extract_direct_speaker_data` (xml_etree_parser.py): every
`audioChannelFormat` with `typeDefinition="DirectSpeakers"` in document
order; channels without an `audioBlockFormat` child are skipped; a repeated
channel name overwrites (dict assignment). -/
def extract_direct_speaker_data (ebu_root : XmlElem) :
    Except PyErr (List (String × SpeakerInfo)) :=
  (ebu_root.iterTag (ebuTag "audioChannelFormat")).foldlM
    (fun m channel => do
      if channel.attr "typeDefinition" "" ≠ "DirectSpeakers" then pure m
      else
        let channel_name := channel.attr "audioChannelFormatName" "Unnamed"
        let channel_id := channel.attr "audioChannelFormatID" ""
        match channel.findChild (ebuTag "audioBlockFormat") with
        | none => pure m
        | some block => do
          let xyz ← _get_position_coords block
          let speaker_label :=
            match childText block (ebuTag "speakerLabel") with
            | some s => if s = "" then "" else String.mk (stripChars s.data)
            | none => ""
          let cartesian ←
            match childText block (ebuTag "cartesian") with
            | some s =>
              if s = "" then Except.ok (1 : Int)
              else
                match pyIntOfString s with
                | some n => Except.ok n
                | none => Except.error PyErr.valueError
            | none => Except.ok (1 : Int)
          let info : SpeakerInfo :=
            { channelID := channel_id, channelName := channel_name,
              blockID := block.attr "audioBlockFormatID" "",
              x := xyz.1, y := xyz.2.1, z := xyz.2.2,
              speakerLabel := speaker_label, cartesian := cartesian }
          if (m.lookup channel_name).isSome then
            pure (m.map fun kv =>
              if kv.1 = channel_name then (channel_name, info) else kv)
          else pure (m ++ [(channel_name, info)]))
    []

/-- `float(elem.text) if elem.text else None` for the optional
width/depth/height entries. -/
def optionalFloatEntry (e : XmlElem) (t : String) :
    Except PyErr (Option (Option ℚ)) :=
  match e.findChild t with
  | none => .ok none
  | some c =>
    match c.text with
    | some s =>
      if s = "" then .ok (some none)
      else
        match pyFloatOfString s with
        | some q => .ok (some (some q))
        | none => .error .valueError
    | none => .ok (some none)

/-- `extract_object_positions` (xml_etree_parser.py): every
`audioChannelFormat` with `typeDefinition="Objects"`, in document order;
objects whose block list is empty are not recorded. -/
def extract_object_positions (ebu_root : XmlElem) :
    Except PyErr (List (String × List Block)) :=
  (ebu_root.iterTag (ebuTag "audioChannelFormat")).foldlM
    (fun m channel => do
      if channel.attr "typeDefinition" "" ≠ "Objects" then pure m
      else
        let name := channel.attr "audioChannelFormatName" "Unnamed"
        let channel_id := channel.attr "audioChannelFormatID" ""
        let blocks ← (channel.findAllChildren (ebuTag "audioBlockFormat")).mapM
          (fun block => do
            let xyz ← _get_position_coords block
            let cartesian ←
              match block.findChild (ebuTag "cartesian") with
              | none => Except.ok (none : Option Int)
              | some c =>
                match c.text with
                | some s =>
                  if s = "" then Except.ok (some (1 : Int))
                  else
                    match pyIntOfString s with
                    | some n => Except.ok (some n)
                    | none => Except.error PyErr.valueError
                | none => Except.ok (some (1 : Int))
            let width ← optionalFloatEntry block (ebuTag "width")
            let depth ← optionalFloatEntry block (ebuTag "depth")
            let height ← optionalFloatEntry block (ebuTag "height")
            pure { rtime := block.attr "rtime" "00:00:00.00000",
                   duration := block.attr "duration" "00:00:00.00000",
                   x := xyz.1, y := xyz.2.1, z := xyz.2.2,
                   channelID := if channel_id ≠ "" then some channel_id else none,
                   cartesian := cartesian, width := width, depth := depth,
                   height := height : Block })
        if blocks.isEmpty then pure m
        else if (m.lookup name).isSome then
          pure (m.map fun kv => if kv.1 = name then (name, blocks) else kv)
        else pure (m ++ [(name, blocks)]))
    []

/-- `parse_adm_xml_to_lusid_scene` (xml_etree_parser.py), on an
already-parsed element tree.

When the EBU root is found, the function runs the full pipeline and then
evaluates `LusidScene(version="0.5", duration=duration_seconds, ...)`
(lines 431–438).  The `LusidScene` dataclass (scene.py) has **no
`duration` field** — `duration` is a read-only property — so this
constructor call raises `TypeError: unexpected keyword argument
'duration'` on every input whose ADM root is locatable. -/
def parse_adm_xml_to_lusid_scene (root : XmlElem)
    (contains_audio : ContainsAudio := {}) : Except PyErr LusidScene := do
  let global_data := extract_global_data root
  let sample_rate ← parseGlobalSampleRate global_data
  let duration_str := (global_data.lookup "Duration").getD ""
  match _find_ebu_root root with
  | none =>
    return { version := "0.5", sample_rate := some sample_rate }
  | some ebu_root => do
    let direct_speaker_data ← extract_direct_speaker_data ebu_root
    let object_data ← extract_object_positions ebu_root
    let audio_map := _build_channel_audio_map contains_audio
    let _duration_seconds : Option ℚ :=
      if duration_str ≠ "" then some (_parse_timecode_to_seconds duration_str)
      else none
    let _metadata : List (String × Json) :=
      [("sourceFormat", .str "ADM")] ++
      (if duration_str ≠ "" then [("duration", .str duration_str)] else []) ++
      (match global_data.lookup "Format" with
       | some f => if f ≠ "" then [("format", .str f)] else []
       | none => [])
    let num_direct_speakers := direct_speaker_data.length
    let static_nodes :=
      buildStaticNodes _DEV_LFE_HARDCODED audio_map direct_speaker_data 0
    let time_to_nodes : TimeMap := [(0, static_nodes)]
    let time_to_nodes :=
      buildObjectTimeMap audio_map num_direct_speakers object_data
        (num_direct_speakers + 1) time_to_nodes
    let _frames := buildFramesFromMap time_to_nodes
    -- LusidScene(version="0.5", duration=duration_seconds, frames=frames, ...)
    -- → TypeError: the dataclass constructor has no `duration` parameter.
    throw PyErr.typeError

/-! ## Claim-side helper definitions and concrete witness data -/

/-- All nodes of all frames of a scene, in frame order. -/
def sceneNodes (s : LusidScene) : List Node := s.frames.flatMap Frame.nodes

/-- Whether a node is the LFE variant. -/
def isLfeN : Node → Bool
  | .lfe _ => true
  | _ => false

/-- Whether a frame's time converts to seconds (the transcoder skips the
frame otherwise). -/
def convOk (time_unit : String) (sample_rate : Option Int) (f : Frame) : Bool :=
  match time_to_seconds f.time time_unit sample_rate with
  | .ok _ => true
  | .error _ => false

/-- Keep, for every id, only the last occurrence, preserving the relative
order of the survivors — the specification of `_parse_frame`'s
duplicate-id policy. -/
def keepLastR : List Node → List Node
  | [] => []
  | n :: rest =>
    if rest.any fun m => m.id == n.id then keepLastR rest
    else n :: keepLastR rest

/-- The nodes one object channel contributes to the scene: its group is its
1-based position among the recorded objects offset by the group counter
start, whether or not its channel is audio-active; a silent channel
contributes nothing (but its group number stays consumed). -/
def objContrib (audio_map : List (Int × Bool)) (ge : Nat × String × List Block) :
    List Node :=
  if audioGet audio_map ((ge.1 : Int) - 1) then
    ge.2.2.map fun b =>
      .audioObject { id := mkNodeId ge.1, cart := [b.x, b.y, b.z] }
  else []

/-- `parse_dict` raises only on a `sampleRate` of `inf` (OverflowError) or
`nan` (ValueError). -/
def noBadSampleRate (fields : List (String × Json)) : Bool :=
  match dgetOpt fields "sampleRate" with
  | some (.num .inf) => false
  | some (.num .nan) => false
  | _ => true

/-- Observable projection of a builder result: the node type tags of all
frames, in order. -/
def projTypes : Except PyErr LusidScene → List String
  | .ok s => (sceneNodes s).map Node.type
  | .error _ => []

/-- A scene holding one direct-speaker node (the round-trip failing input
of C1). -/
def c1Scene : LusidScene :=
  { version := "0.5",
    frames := [{ time := 0,
                 nodes := [.directSpeaker { id := "1.1", cart := [-1, 1, 0],
                                            speakerLabel := "RC_L",
                                            channelID := "AC_00011001" }] }],
    time_unit := "seconds", sample_rate := some 48000, metadata := [] }

/-- The direct-speaker node object of `tests/test_parser.py`
(`test_direct_speaker_parsed`). -/
def c2RawDS : List (String × Json) :=
  [("id", .str "1.1"), ("type", .str "direct_speaker"),
   ("cart", .arr [.num (.fin (-1)), .num (.fin 1), .num (.fin 0)]),
   ("speakerLabel", .str "RC_L"), ("channelID", .str "AC_00011001")]

/-- The same object with only the `type` tag changed. -/
def c2RawAudio : List (String × Json) :=
  [("id", .str "1.1"), ("type", .str "audio_object"),
   ("cart", .arr [.num (.fin (-1)), .num (.fin 1), .num (.fin 0)]),
   ("speakerLabel", .str "RC_L"), ("channelID", .str "AC_00011001")]

/-- A bwfmetaedit conformance document with a locatable ADM root: a
`<Technical>` section and one DirectSpeakers channel inside
`<aXML><ebuCoreMain>`. -/
def c3XmlWithRoot : XmlElem :=
  .mk "conformance_point_document" [] none
    [.mk "Technical" [] none
      [.mk "SampleRate" [] (some "48000") [],
       .mk "Duration" [] (some "00:01:30.00000") []],
     .mk "aXML" [] none
      [.mk (ebuTag "ebuCoreMain") [] none
        [.mk (ebuTag "audioChannelFormat")
            [("typeDefinition", "DirectSpeakers"),
             ("audioChannelFormatName", "L")] none
          [.mk (ebuTag "audioBlockFormat") [] none
            [.mk (ebuTag "position") [("coordinate", "X")] (some "-1.0") [],
             .mk (ebuTag "speakerLabel") [] (some "RC_L") []]]]]]

/-- A document with no locatable ADM root. -/
def c3XmlNoRoot : XmlElem := .mk "conformance_point_document" [] none []

/-- Loader input exercising defaulting and frame sorting (frames out of
order). -/
def c4Fields : List (String × Json) :=
  [("version", .str "0.5"), ("timeUnit", .str "ms"),
   ("frames", .arr
     [.obj [("time", .num (.fin 2)), ("nodes", .arr [])],
      .obj [("time", .num (.fin 1)), ("nodes", .arr [])]])]

/-- A scene with an LFE node in a convertible frame. -/
def c5Scene : LusidScene :=
  { frames := [{ time := 0, nodes := [.lfe { id := "4.1" }] }] }

/-- A scene whose only LFE node sits in a frame that cannot be converted
(`samples` unit, no sample rate): the frame is skipped and no LFE track is
emitted. -/
def c5BadScene : LusidScene :=
  { frames := [{ time := 0, nodes := [.lfe { id := "4.1" }] }],
    time_unit := "samples", sample_rate := none }

/-- Four direct-speaker records in document order (Scenario C). -/
def c6Speakers : List (String × SpeakerInfo) :=
  [("L", { x := -1, y := 1, speakerLabel := "RC_L" }),
   ("R", { x := 1, y := 1, speakerLabel := "RC_R" }),
   ("C", { y := 1, speakerLabel := "RC_C" }),
   ("Sub", { speakerLabel := "RC_LFE" })]

/-- One object channel with two position blocks. -/
def c6Objects : List (String × List Block) :=
  [("guitar", [{ rtime := "00:00:00.00000", x := 1/2 },
               { rtime := "00:00:10.00000", x := 1/2, y := 1/2 }])]

/-- Four speaker records whose labels make the positional and the
label-based LFE strategies disagree (channel 2 is labelled LFE, channel 4
is not). -/
def c8Speakers : List (String × SpeakerInfo) :=
  [("L", { speakerLabel := "RC_L" }),
   ("LFE1", { speakerLabel := "RC_LFE" }),
   ("C", { speakerLabel := "RC_C" }),
   ("Rss", { speakerLabel := "RC_Rss" })]

/-- Two recorded object channels with channel 0 silent: the first object
still consumes group 1 and the second is emitted as group 2. -/
def c10Objects : List (String × List Block) :=
  [("a", [{ rtime := "00:00:00.00000", x := 1 }]),
   ("b", [{ rtime := "00:00:01.00000", x := 2 }])]

def c10Audio : ContainsAudio :=
  { channels := [{ channel_index := some 0, contains_audio := false },
                 { channel_index := some 1, contains_audio := true }] }

/-- A frame object whose node list holds two parseable nodes sharing one
id. -/
def c7Fields : List (String × Json) :=
  [("time", .num (.fin 0)),
   ("nodes", .arr
     [.obj [("id", .str "1.1"), ("type", .str "audio_object"),
            ("cart", .arr [.num (.fin 1), .num (.fin 0), .num (.fin 0)])],
      .obj [("id", .str "1.1"), ("type", .str "audio_object"),
            ("cart", .arr [.num (.fin 0), .num (.fin 1), .num (.fin 0)])]])]

/-- An audio-object node object with a 4-element cart. -/
def c9Raw : List (String × Json) :=
  [("id", .str "2.1"), ("type", .str "audio_object"),
   ("cart", .arr [.num (.fin 1), .num (.fin 2), .num (.fin 3), .num (.fin 4)])]

/-! ## Sorting lemmas -/

theorem insertFrameAsc_perm (a : Frame) (l : List Frame) :
    (insertFrameAsc a l).Perm (a :: l) := by
  induction l with
  | nil => simp [insertFrameAsc]
  | cons b bs ih =>
    simp only [insertFrameAsc]
    split
    · exact List.Perm.refl _
    · exact (List.Perm.cons b ih).trans (List.Perm.swap a b bs)

theorem mem_insertFrameAsc {x a : Frame} {l : List Frame}
    (h : x ∈ insertFrameAsc a l) : x = a ∨ x ∈ l := by
  have h2 := (insertFrameAsc_perm a l).mem_iff.mp h
  simpa using h2

theorem insertFrameAsc_sorted {a : Frame} {l : List Frame}
    (h : l.Pairwise fun x y => x.time ≤ y.time) :
    (insertFrameAsc a l).Pairwise fun x y => x.time ≤ y.time := by
  induction l with
  | nil => simp [insertFrameAsc]
  | cons b bs ih =>
    rw [List.pairwise_cons] at h
    obtain ⟨hb, hbs⟩ := h
    simp only [insertFrameAsc]
    split
    case isTrue hlt =>
      refine List.Pairwise.cons ?_ (List.Pairwise.cons hb hbs)
      intro y hy
      rw [List.mem_cons] at hy
      rcases hy with rfl | hy
      · exact le_of_lt hlt
      · exact le_trans (le_of_lt hlt) (hb y hy)
    case isFalse hge =>
      refine List.Pairwise.cons ?_ (ih hbs)
      intro y hy
      rcases mem_insertFrameAsc hy with rfl | hy
      · exact le_of_not_lt hge
      · exact hb y hy

theorem sortFramesByTime_aux_perm (l acc : List Frame) :
    (l.foldl (fun acc f => insertFrameAsc f acc) acc).Perm (acc ++ l) := by
  induction l generalizing acc with
  | nil => simp
  | cons f fs ih =>
    simp only [List.foldl_cons]
    refine (ih (insertFrameAsc f acc)).trans ?_
    refine (List.Perm.append_right fs (insertFrameAsc_perm f acc)).trans ?_
    exact List.perm_middle.symm

theorem sortFramesByTime_perm (l : List Frame) : (sortFramesByTime l).Perm l := by
  simpa using sortFramesByTime_aux_perm l []

theorem sortFramesByTime_sorted (l : List Frame) :
    (sortFramesByTime l).Pairwise fun x y => x.time ≤ y.time := by
  suffices h : ∀ acc, acc.Pairwise (fun x y : Frame => x.time ≤ y.time) →
      (l.foldl (fun acc f => insertFrameAsc f acc) acc).Pairwise
        fun x y => x.time ≤ y.time by
    exact h [] (by simp)
  induction l with
  | nil => intro acc hacc; simpa using hacc
  | cons f fs ih =>
    intro acc hacc
    exact ih _ (insertFrameAsc_sorted hacc)

theorem insertRatAsc_perm (a : ℚ) (l : List ℚ) :
    (insertRatAsc a l).Perm (a :: l) := by
  induction l with
  | nil => simp [insertRatAsc]
  | cons b bs ih =>
    simp only [insertRatAsc]
    split
    · exact List.Perm.refl _
    · exact (List.Perm.cons b ih).trans (List.Perm.swap a b bs)

theorem sortRats_aux_perm (l acc : List ℚ) :
    (l.foldl (fun acc x => insertRatAsc x acc) acc).Perm (acc ++ l) := by
  induction l generalizing acc with
  | nil => simp
  | cons x xs ih =>
    simp only [List.foldl_cons]
    refine (ih (insertRatAsc x acc)).trans ?_
    refine (List.Perm.append_right xs (insertRatAsc_perm x acc)).trans ?_
    exact List.perm_middle.symm

theorem sortRats_perm (l : List ℚ) : (sortRats l).Perm l := by
  simpa using sortRats_aux_perm l []

/-! ## Duplicate-id theory for `_parse_frame` (C7) -/

theorem mem_keepLastR {m : Node} : ∀ {l : List Node}, m ∈ keepLastR l → m ∈ l := by
  intro l
  induction l with
  | nil => simp [keepLastR]
  | cons n rest ih =>
    simp only [keepLastR]
    split
    · intro h; exact List.mem_cons_of_mem n (ih h)
    · intro h
      rw [List.mem_cons] at h
      rcases h with rfl | h
      · exact List.mem_cons_self _ _
      · exact List.mem_cons_of_mem n (ih h)

theorem keepLastR_of_nodup : ∀ {l : List Node},
    (l.map Node.id).Nodup → keepLastR l = l := by
  intro l
  induction l with
  | nil => simp [keepLastR]
  | cons n rest ih =>
    intro h
    rw [List.map_cons, List.nodup_cons] at h
    obtain ⟨hn, hrest⟩ := h
    have hany : (rest.any fun m => m.id == n.id) = false := by
      rw [Bool.eq_false_iff]
      intro hc
      rw [List.any_eq_true] at hc
      obtain ⟨m, hm, hid⟩ := hc
      rw [beq_iff_eq] at hid
      exact hn (hid ▸ List.mem_map_of_mem Node.id hm)
    simp only [keepLastR, hany]
    simp [ih hrest]

theorem getLast?_cons_of_ne_nil' {α : Type} (a : α) {l : List α} (h : l ≠ []) :
    (a :: l).getLast? = l.getLast? := by
  cases l with
  | nil => exact absurd rfl h
  | cons b t => rfl

/-- Membership of an id in a list is unaffected by filtering out a
different id. -/
theorem any_id_filter {i j : String} (hij : i ≠ j) (l tail : List Node) :
    ((l.filter fun m => m.id ≠ j) ++ tail).any (fun m => m.id == i) =
      ((l ++ tail).any fun m => m.id == i) := by
  induction l with
  | nil => simp
  | cons a rest ih =>
    by_cases ha : a.id = j
    · rw [List.filter_cons_of_neg (by simp [ha])]
      rw [ih, List.cons_append, List.any_cons]
      have hai : (a.id == i) = false := by
        rw [beq_eq_false_iff_ne, ha]
        exact fun hc => hij hc.symm
      rw [hai, Bool.false_or]
    · rw [List.filter_cons_of_pos (by simp [ha])]
      rw [List.cons_append, List.any_cons, List.cons_append, List.any_cons, ih]

/-- Dropping the earlier occurrences of an id that occurs later anyway
does not change the keep-last projection. -/
theorem keepLastR_filter_append {j : String} :
    ∀ (l : List Node) (n : Node) (tail : List Node), n.id = j →
    keepLastR ((l.filter fun m => m.id ≠ j) ++ n :: tail) =
      keepLastR (l ++ n :: tail) := by
  intro l
  induction l with
  | nil => intro n tail _; simp
  | cons a rest ih =>
    intro n tail hn
    by_cases ha : a.id = j
    · rw [List.filter_cons_of_neg (by simp [ha])]
      rw [ih n tail hn, List.cons_append]
      have hmem : ((rest ++ n :: tail).any fun m => m.id == a.id) = true := by
        rw [List.any_eq_true]
        exact ⟨n, by simp, by rw [beq_iff_eq, hn, ha]⟩
      conv_rhs => rw [keepLastR]
      rw [hmem]
      simp
    · rw [List.filter_cons_of_pos (by simp [ha]), List.cons_append,
        List.cons_append]
      have hstep : ∀ X : List Node, keepLastR (a :: X) =
          if X.any (fun m => m.id == a.id) then keepLastR X
          else a :: keepLastR X := fun X => rfl
      rw [hstep, hstep]
      rw [any_id_filter (i := a.id) (j := j) ha rest (n :: tail)]
      rw [ih n tail hn]

/-- The filtered accumulator keeps nodup ids. -/
theorem nodup_filter_append {l : List Node} (n : Node)
    (h : (l.map Node.id).Nodup) :
    (((l.filter fun m => m.id ≠ n.id) ++ [n]).map Node.id).Nodup := by
  rw [List.map_append, List.nodup_append]
  refine ⟨(List.Sublist.map Node.id (List.filter_sublist l)).nodup h, by simp, ?_⟩
  intro i hi
  simp only [List.mem_map] at hi
  obtain ⟨m, hm, rfl⟩ := hi
  rw [List.mem_filter] at hm
  have hne := hm.2
  simp only [decide_eq_true_eq] at hne
  simpa using fun hc => hne (by rw [hc])

/-- The unconditional fold equals `keepLastR` of accumulator ++ input. -/
theorem foldl_keepLast_eq : ∀ (l acc : List Node),
    (acc.map Node.id).Nodup →
    (l.foldl (fun nodes n => (nodes.filter fun m => m.id ≠ n.id) ++ [n]) acc) =
      keepLastR (acc ++ l) := by
  intro l
  induction l with
  | nil => intro acc h; simpa using (keepLastR_of_nodup h).symm
  | cons n rest ih =>
    intro acc h
    simp only [List.foldl_cons]
    rw [ih _ (nodup_filter_append n h)]
    rw [List.append_assoc, List.singleton_append]
    exact keepLastR_filter_append acc n rest rfl

/-- The faithful fold of `_parse_frame` (with its `seen_ids` bookkeeping)
equals the unconditional filter-and-append fold. -/
theorem frameFold_eq_foldl : ∀ (l nodes : List Node) (seen : List String),
    (∀ m ∈ nodes, m.id ∈ seen) →
    (l.foldl frameStep (nodes, seen)).1 =
      l.foldl (fun nodes n => (nodes.filter fun m => m.id ≠ n.id) ++ [n]) nodes := by
  intro l
  induction l with
  | nil => intro nodes seen _; rfl
  | cons n rest ih =>
    intro nodes seen hinv
    simp only [List.foldl_cons, frameStep]
    by_cases hseen : n.id ∈ seen
    · simp only [if_pos hseen]
      exact ih _ _ (by
        intro m hm
        rw [List.mem_append] at hm
        rcases hm with hm | hm
        · exact List.mem_cons_of_mem _ (hinv m (List.mem_of_mem_filter hm))
        · simp_all)
    · simp only [if_neg hseen]
      have hfix : (nodes.filter fun m => m.id ≠ n.id) = nodes := by
        rw [List.filter_eq_self]
        intro m hm
        simp only [decide_eq_true_eq]
        intro hc
        exact hseen (hc ▸ hinv m hm)
      rw [hfix]
      exact ih _ _ (by
        intro m hm
        rw [List.mem_append] at hm
        rcases hm with hm | hm
        · exact List.mem_cons_of_mem _ (hinv m hm)
        · simp_all)

/-- Survivor count: one node per distinct id. -/
theorem keepLastR_length : ∀ l : List Node,
    (keepLastR l).length = (l.map Node.id).dedup.length := by
  intro l
  induction l with
  | nil => simp [keepLastR]
  | cons n rest ih =>
    have hstep : keepLastR (n :: rest) =
        if rest.any (fun m => m.id == n.id) then keepLastR rest
        else n :: keepLastR rest := rfl
    by_cases hmem : n.id ∈ rest.map Node.id
    · have hany : (rest.any fun m => m.id == n.id) = true := by
        rw [List.any_eq_true]
        rw [List.mem_map] at hmem
        obtain ⟨m, hm, hid⟩ := hmem
        exact ⟨m, hm, by rw [beq_iff_eq, hid]⟩
      rw [hstep, hany, if_pos rfl, List.map_cons, List.dedup_cons_of_mem hmem]
      exact ih
    · have hany : (rest.any fun m => m.id == n.id) = false := by
        rw [Bool.eq_false_iff]
        intro hc
        rw [List.any_eq_true] at hc
        obtain ⟨m, hm, hid⟩ := hc
        rw [beq_iff_eq] at hid
        exact hmem (hid ▸ List.mem_map_of_mem Node.id hm)
      rw [hstep, hany]
      simp only [Bool.false_eq_true, if_false, List.length_cons, List.map_cons]
      rw [List.dedup_cons_of_not_mem hmem]
      simp [ih]

/-- For every id, the surviving node is the last occurrence with that id. -/
theorem keepLastR_filter_id (i : String) : ∀ l : List Node,
    (keepLastR l).filter (fun n => n.id == i) =
      ((l.filter fun n => n.id == i).getLast?).toList := by
  intro l
  induction l with
  | nil => simp [keepLastR]
  | cons n rest ih =>
    have hstep : keepLastR (n :: rest) =
        if rest.any (fun m => m.id == n.id) then keepLastR rest
        else n :: keepLastR rest := rfl
    by_cases hni : n.id = i
    · by_cases hmem : ∃ m ∈ rest, m.id = n.id
      · have hany : (rest.any fun m => m.id == n.id) = true := by
          rw [List.any_eq_true]
          obtain ⟨m, hm, hid⟩ := hmem
          exact ⟨m, hm, by rw [beq_iff_eq, hid]⟩
        rw [hstep, hany, if_pos rfl, ih]
        have hfe : (rest.filter fun n => n.id == i) ≠ [] := by
          obtain ⟨m, hm, hid⟩ := hmem
          have hmf : m ∈ rest.filter fun n => n.id == i := by
            rw [List.mem_filter]
            exact ⟨hm, by rw [beq_iff_eq, hid, hni]⟩
          exact List.ne_nil_of_mem hmf
        rw [List.filter_cons_of_pos (by rw [beq_iff_eq]; exact hni)]
        rw [getLast?_cons_of_ne_nil' n hfe]
      · have hany : (rest.any fun m => m.id == n.id) = false := by
          rw [Bool.eq_false_iff]
          intro hc
          rw [List.any_eq_true] at hc
          obtain ⟨m, hm, hid⟩ := hc
          rw [beq_iff_eq] at hid
          exact hmem ⟨m, hm, hid⟩
        rw [hstep, hany]
        simp only [Bool.false_eq_true, if_false]
        have hfe : (rest.filter fun n => n.id == i) = [] := by
          rw [List.filter_eq_nil_iff]
          intro m hm
          simp only [beq_iff_eq]
          intro hc
          exact hmem ⟨m, hm, by rw [hc, hni]⟩
        rw [List.filter_cons_of_pos (by rw [beq_iff_eq]; exact hni)]
        rw [List.filter_cons_of_pos (by rw [beq_iff_eq]; exact hni)]
        rw [hfe, ih, hfe]
        simp
    · rw [List.filter_cons_of_neg (by simp [hni])]
      rw [hstep]
      split
      · exact ih
      · rw [List.filter_cons_of_neg (by simp [hni])]
        exact ih

/-! ## Time-map lemmas for the scene builders (C6, C10) -/

theorem lookup_isSome_iff {α β : Type} [BEq α] [LawfulBEq α]
    (m : List (α × β)) (t : α) :
    (m.lookup t).isSome = true ↔ t ∈ m.map Prod.fst := by
  induction m with
  | nil => simp
  | cons kv rest ih =>
    obtain ⟨k, v⟩ := kv
    by_cases h : t = k
    · subst h
      simp [List.lookup_cons]
    · have hne : (t == k) = false := by simpa using h
      simp [List.lookup_cons, hne, ih, h]

/-- All nodes stored in a time map, in entry order. -/
def timeMapNodes (m : TimeMap) : List Node := m.flatMap Prod.snd

theorem timeMapAdd_cons_ne {k : ℚ} {v : List Node} {rest : TimeMap} {t : ℚ}
    {n : Node} (h : k ≠ t) :
    timeMapAdd ((k, v) :: rest) t n = (k, v) :: timeMapAdd rest t n := by
  have hbeq : (t == k) = false := by simpa using fun hc => h hc.symm
  simp only [timeMapAdd, List.lookup_cons, hbeq]
  split
  · simp [h]
  · simp

theorem map_upd_id {rest : TimeMap} {t : ℚ} (h : t ∉ rest.map Prod.fst)
    (g : List Node → List Node) :
    (rest.map fun kv => if kv.1 = t then (kv.1, g kv.2) else kv) = rest := by
  induction rest with
  | nil => rfl
  | cons kv rest ih =>
    simp only [List.map_cons, List.mem_cons] at h ⊢
    have hne : kv.1 ≠ t := fun hc => h (Or.inl hc.symm)
    rw [if_neg hne, ih fun hc => h (Or.inr hc)]

theorem timeMapAdd_keys (m : TimeMap) (t : ℚ) (n : Node) :
    (timeMapAdd m t n).map Prod.fst =
      if (m.lookup t).isSome then m.map Prod.fst
      else m.map Prod.fst ++ [t] := by
  simp only [timeMapAdd]
  split
  · rw [List.map_map]
    exact List.map_congr_left fun kv _ => by
      by_cases hk : kv.1 = t
      · simp [Function.comp, hk]
      · simp [Function.comp, hk]
  · simp

theorem timeMapAdd_keys_nodup {m : TimeMap} (t : ℚ) (n : Node)
    (h : (m.map Prod.fst).Nodup) :
    ((timeMapAdd m t n).map Prod.fst).Nodup := by
  rw [timeMapAdd_keys]
  split
  · exact h
  · rw [List.nodup_append]
    refine ⟨h, by simp, ?_⟩
    intro x hx
    simp only [List.mem_singleton]
    intro hc
    subst hc
    have hs := (lookup_isSome_iff m x).mpr hx
    simp_all

theorem timeMapAdd_nodes {t : ℚ} {n : Node} : ∀ {m : TimeMap},
    (m.map Prod.fst).Nodup →
    (timeMapNodes (timeMapAdd m t n)).Perm (timeMapNodes m ++ [n]) := by
  intro m
  induction m with
  | nil =>
    intro _
    simp [timeMapAdd, timeMapNodes]
  | cons kv rest ih =>
    obtain ⟨k, v⟩ := kv
    intro h
    rw [List.map_cons, List.nodup_cons] at h
    obtain ⟨hk, hrest⟩ := h
    by_cases hkt : k = t
    · subst hkt
      have hl : (((k, v) :: rest).lookup k).isSome := by
        simp [List.lookup_cons]
      simp only [timeMapAdd, hl, if_pos, List.map_cons, if_pos rfl]
      rw [map_upd_id hk fun l => l ++ [n]]
      show ((v ++ [n]) ++ timeMapNodes rest).Perm
        ((v ++ timeMapNodes rest) ++ [n])
      rw [List.append_assoc, List.append_assoc]
      exact List.Perm.append_left v List.perm_append_comm
    · rw [timeMapAdd_cons_ne hkt]
      show (v ++ timeMapNodes (timeMapAdd rest t n)).Perm
        ((v ++ timeMapNodes rest) ++ [n])
      rw [List.append_assoc]
      exact List.Perm.append_left v (ih hrest)

theorem insertBlocks_keys_nodup {g : Nat} : ∀ (blocks : List Block) {m : TimeMap},
    (m.map Prod.fst).Nodup → ((insertBlocks g blocks m).map Prod.fst).Nodup := by
  intro blocks
  induction blocks with
  | nil => intro m h; exact h
  | cons b bs ih =>
    intro m h
    exact ih (timeMapAdd_keys_nodup _ _ h)

theorem insertBlocks_nodes {g : Nat} : ∀ (blocks : List Block) {m : TimeMap},
    (m.map Prod.fst).Nodup →
    (timeMapNodes (insertBlocks g blocks m)).Perm
      (timeMapNodes m ++ blocks.map fun b =>
        .audioObject { id := mkNodeId g, cart := [b.x, b.y, b.z] }) := by
  intro blocks
  induction blocks with
  | nil => intro m _; simp [insertBlocks]
  | cons b bs ih =>
    intro m h
    show (timeMapNodes (insertBlocks g bs (timeMapAdd m _ _))).Perm _
    refine (ih (timeMapAdd_keys_nodup _ _ h)).trans ?_
    rw [List.map_cons]
    refine (List.Perm.append_right _ (timeMapAdd_nodes h)).trans ?_
    rw [List.append_assoc, List.singleton_append]

theorem buildObjectTimeMap_keys_nodup (amap : List (Int × Bool)) (nds : Nat) :
    ∀ (objs : List (String × List Block)) (g : Nat) {m : TimeMap},
    (m.map Prod.fst).Nodup →
    ((buildObjectTimeMap amap nds objs g m).map Prod.fst).Nodup := by
  intro objs
  induction objs with
  | nil => intro g m h; exact h
  | cons ob rest ih =>
    intro g m h
    obtain ⟨name, blocks⟩ := ob
    simp only [buildObjectTimeMap]
    split
    · exact ih g h
    · split
      · exact ih (g + 1) h
      · exact ih (g + 1) (insertBlocks_keys_nodup blocks h)

theorem enumFrom_cons' {α : Type} (n : Nat) (a : α) (l : List α) :
    List.enumFrom n (a :: l) = (n, a) :: List.enumFrom (n + 1) l := rfl

/-- The nodes the object loop adds: each recorded object's group is its
enumeration position; silent channels contribute nothing. -/
theorem buildObjectTimeMap_nodes (amap : List (Int × Bool)) (nds : Nat) :
    ∀ (objs : List (String × List Block)) (g : Nat) {m : TimeMap},
    (m.map Prod.fst).Nodup →
    (∀ p ∈ objs, p.2 ≠ []) →
    (timeMapNodes (buildObjectTimeMap amap nds objs g m)).Perm
      (timeMapNodes m ++ (objs.enumFrom g).flatMap (objContrib amap)) := by
  intro objs
  induction objs with
  | nil => intro g m h _; simp [buildObjectTimeMap]
  | cons ob rest ih =>
    intro g m h hne
    obtain ⟨name, blocks⟩ := ob
    have hbne : blocks ≠ [] := hne _ (List.mem_cons_self _ _)
    have hbe : blocks.isEmpty = false := by
      simpa [List.isEmpty_iff] using hbne
    simp only [buildObjectTimeMap, hbe, Bool.false_eq_true, if_false]
    have hrest : ∀ p ∈ rest, p.2 ≠ [] := fun p hp =>
      hne p (List.mem_cons_of_mem _ hp)
    have hchan : (nds : Int) + ((g : Int) - (nds : Int) - 1) = (g : Int) - 1 := by
      ring
    rw [enumFrom_cons', List.flatMap_cons]
    split
    case isTrue hsilent =>
      refine (ih (g + 1) h hrest).trans ?_
      have hco : objContrib amap (g, name, blocks) = [] := by
        simp only [objContrib]
        rw [if_neg]
        intro hc
        rw [hchan] at hsilent
        exact hsilent hc
      rw [hco, List.nil_append]
    case isFalse hactive =>
      refine (ih (g + 1) (insertBlocks_keys_nodup blocks h) hrest).trans ?_
      have hco : objContrib amap (g, name, blocks) =
          blocks.map fun b =>
            .audioObject { id := mkNodeId g, cart := [b.x, b.y, b.z] } := by
        simp only [objContrib]
        rw [if_pos]
        rw [← hchan]
        exact not_not.mp hactive
      rw [hco]
      refine (List.Perm.append_right _ (insertBlocks_nodes blocks h)).trans ?_
      rw [List.append_assoc]

/-- The direct-speaker loop characterized over the enumerated records:
the k-th record (0-based) carries 1-based channel `k+1`, consumes group
`k+1` and is emitted iff its channel is audio-active. -/
theorem buildStaticNodes_eq (flag : Bool) (amap : List (Int × Bool)) :
    ∀ (ds : List (String × SpeakerInfo)) (ch : Nat),
    buildStaticNodes flag amap ds ch =
      (ds.enumFrom ch).filterMap fun ke =>
        if audioGet amap (ke.1 : Int) then
          some
            (if _is_lfe_channel flag ke.2.1 ke.2.2 (ke.1 + 1) then
              .lfe { id := mkNodeId (ke.1 + 1) }
            else
              .directSpeaker
                { id := mkNodeId (ke.1 + 1),
                  cart := [ke.2.2.x, ke.2.2.y, ke.2.2.z],
                  speakerLabel := ke.2.2.speakerLabel,
                  channelID := ke.2.2.channelID })
        else none := by
  intro ds
  induction ds with
  | nil => intro ch; rfl
  | cons r rest ih =>
    intro ch
    obtain ⟨name, info⟩ := r
    rw [enumFrom_cons', List.filterMap_cons]
    simp only [buildStaticNodes]
    have harith : ((ch + 1 : Nat) : Int) - 1 = (ch : Int) := by push_cast; ring
    rw [harith]
    by_cases hact : audioGet amap (ch : Int)
    · rw [if_neg (by simp [hact]), if_pos hact]
      by_cases hlfe : _is_lfe_channel flag name info (ch + 1)
      · rw [if_pos hlfe, if_pos hlfe, ih]
      · rw [if_neg hlfe, if_neg hlfe, ih]
    · rw [if_pos (by simp [hact]), if_neg hact, ih]

/-- Flattening the built frames gives the time map's values flattened
over the sorted key order. -/
theorem buildFramesFromMap_flat_aux (m : TimeMap) : ∀ keyList : List ℚ,
    ((keyList.filterMap fun t =>
        let nodes := (m.lookup t).getD []
        if nodes.isEmpty then none
        else some { time := pyRound6 t, nodes := nodes : Frame }).flatMap
      Frame.nodes) =
      keyList.flatMap fun t => (m.lookup t).getD [] := by
  intro keyList
  induction keyList with
  | nil => rfl
  | cons t ts ih =>
    rw [List.filterMap_cons, List.flatMap_cons]
    by_cases he : ((m.lookup t).getD []).isEmpty
    · simp only [he, if_pos]
      rw [ih]
      rw [List.isEmpty_iff] at he
      rw [he, List.nil_append]
    · simp only [he, Bool.false_eq_true, if_false, List.flatMap_cons]
      rw [ih]

/-- Over nodup keys, flat-mapping the lookup over the key list recovers the
stored values in order. -/
theorem flatMap_lookup_keys : ∀ m : TimeMap,
    (m.map Prod.fst).Nodup →
    ((m.map Prod.fst).flatMap fun t => (m.lookup t).getD []) = timeMapNodes m := by
  intro m
  induction m with
  | nil => intro _; rfl
  | cons kv rest ih =>
    intro h
    obtain ⟨k, v⟩ := kv
    rw [List.map_cons, List.nodup_cons] at h
    obtain ⟨hk, hrest⟩ := h
    rw [List.map_cons, List.flatMap_cons]
    have hhead : (((k, v) :: rest).lookup k).getD [] = v := by
      simp [List.lookup_cons]
    rw [hhead]
    have htail : ((rest.map Prod.fst).flatMap
        fun t => (((k, v) :: rest).lookup t).getD []) =
        (rest.map Prod.fst).flatMap fun t => (rest.lookup t).getD [] := by
      rw [List.flatMap_def, List.flatMap_def]
      congr 1
      refine List.map_congr_left ?_
      intro t ht
      have hne : (t == k) = false := by
        rw [beq_eq_false_iff_ne]
        intro hc
        exact hk (hc ▸ ht)
      simp [List.lookup_cons, hne]
    rw [htail, ih hrest]
    rfl

/-- Flattening the frames a builder produces permutes the time map's
stored nodes. -/
theorem buildFramesFromMap_nodes (m : TimeMap) (h : (m.map Prod.fst).Nodup) :
    ((buildFramesFromMap m).flatMap Frame.nodes).Perm (timeMapNodes m) := by
  rw [buildFramesFromMap, buildFramesFromMap_flat_aux]
  have h1 : ((sortRats (m.map Prod.fst)).flatMap fun t =>
      (m.lookup t).getD []).Perm
      ((m.map Prod.fst).flatMap fun t => (m.lookup t).getD []) := by
    rw [List.flatMap_def, List.flatMap_def]
    exact ((sortRats_perm (m.map Prod.fst)).map _).flatten
  rw [flatMap_lookup_keys m h] at h1
  exact h1

/-- Master characterization of the dict-based builder: the nodes of the
returned scene are, up to frame regrouping, the direct-speaker pass
followed by the object contributions with document-order group numbers
starting at `N + 1`. -/
theorem adm_sceneNodes (flag : Bool) (objs : List (String × List Block))
    (ds : List (String × SpeakerInfo)) (glob : List (String × String))
    (ca : ContainsAudio) (scene : LusidScene)
    (hne : ∀ p ∈ objs, p.2 ≠ [])
    (hok : adm_to_lusid_scene flag objs ds glob ca = .ok scene) :
    (sceneNodes scene).Perm
      (buildStaticNodes flag (_build_channel_audio_map ca) ds 0 ++
       (objs.enumFrom (ds.length + 1)).flatMap
         (objContrib (_build_channel_audio_map ca))) := by
  unfold adm_to_lusid_scene at hok
  cases hsr : parseGlobalSampleRate glob with
  | error e =>
    rw [hsr] at hok
    simp only [bind, Except.bind] at hok
    exact Except.noConfusion hok
  | ok sr =>
  rw [hsr] at hok
  simp only [bind, Except.bind, pure, Except.pure, Except.ok.injEq] at hok
  subst hok
  show ((buildFramesFromMap _).flatMap Frame.nodes).Perm _
  set amap := _build_channel_audio_map ca with hamap
  set static := buildStaticNodes flag amap ds 0 with hstatic
  have hkeys0 : (([((0 : ℚ), static)] : TimeMap).map Prod.fst).Nodup := by simp
  have hkeys := buildObjectTimeMap_keys_nodup amap ds.length objs
    (ds.length + 1) hkeys0
  refine (buildFramesFromMap_nodes _ hkeys).trans ?_
  refine (buildObjectTimeMap_nodes amap ds.length objs (ds.length + 1)
    hkeys0 hne).trans ?_
  have hbase : timeMapNodes [((0 : ℚ), static)] = static := by
    simp [timeMapNodes]
  rw [hbase]

/-! ## Transcoder lemmas (C5) -/

theorem transcodeNode_has_lfe (t : ℚ) (st : TState) (n : Node) :
    (transcodeNode t st n).has_lfe = (st.has_lfe || isLfeN n) := by
  cases n <;> simp [transcodeNode, isLfeN]

theorem foldl_nodes_has_lfe (t : ℚ) : ∀ (l : List Node) (st : TState),
    (l.foldl (transcodeNode t) st).has_lfe = (st.has_lfe || l.any isLfeN) := by
  intro l
  induction l with
  | nil => intro st; simp
  | cons n rest ih =>
    intro st
    rw [List.foldl_cons, ih, transcodeNode_has_lfe, List.any_cons,
      Bool.or_assoc]

theorem transcodeFrame_has_lfe (u : String) (sr : Option Int) (st : TState)
    (f : Frame) :
    (transcodeFrame u sr st f).has_lfe =
      (st.has_lfe || (convOk u sr f && f.nodes.any isLfeN)) := by
  unfold transcodeFrame convOk
  cases time_to_seconds f.time u sr with
  | error e => simp
  | ok t => rw [foldl_nodes_has_lfe]; simp

theorem foldl_frames_has_lfe (u : String) (sr : Option Int) :
    ∀ (frames : List Frame) (st : TState),
    (frames.foldl (transcodeFrame u sr) st).has_lfe =
      (st.has_lfe || frames.any fun f => convOk u sr f && f.nodes.any isLfeN) := by
  intro frames
  induction frames with
  | nil => intro st; simp
  | cons f rest ih =>
    intro st
    rw [List.foldl_cons, ih, transcodeFrame_has_lfe, List.any_cons,
      Bool.or_assoc]

/-- Every key the frame loop puts into `sources` is a `src_<group>` name of
length at least 4, so the synthetic `"LFE"` key (length 3) never collides. -/
def srcKeysOk (sources : List (String × List Keyframe)) : Prop :=
  ∀ kv ∈ sources, 4 ≤ kv.1.length

theorem sourcesAdd_keysOk {sources : List (String × List Keyframe)}
    {name : String} {kf : Keyframe} (h : srcKeysOk sources)
    (hn : 4 ≤ name.length) : srcKeysOk (sourcesAdd sources name kf) := by
  unfold sourcesAdd
  split
  · intro kv hkv
    rw [List.mem_map] at hkv
    obtain ⟨kv0, hkv0, rfl⟩ := hkv
    split
    case isTrue heq => simpa [heq] using hn
    case isFalse _ => exact h kv0 hkv0
  · intro kv hkv
    rw [List.mem_append] at hkv
    rcases hkv with hkv | hkv
    · exact h kv hkv
    · rw [List.mem_singleton] at hkv
      subst hkv
      exact hn

theorem transcodeNode_keysOk (t : ℚ) {st : TState} (n : Node)
    (h : srcKeysOk st.sources) : srcKeysOk (transcodeNode t st n).sources := by
  cases n with
  | audioObject a =>
    refine sourcesAdd_keysOk h ?_
    rw [String.length_append]
    have h4 : ("src_" : String).length = 4 := rfl
    omega
  | lfe a => exact h
  | directSpeaker a => exact h
  | spectralFeatures a => exact h
  | agentState a => exact h

theorem foldl_nodes_keysOk (t : ℚ) : ∀ (l : List Node) {st : TState},
    srcKeysOk st.sources →
    srcKeysOk ((l.foldl (transcodeNode t) st).sources) := by
  intro l
  induction l with
  | nil => intro st h; exact h
  | cons n rest ih =>
    intro st h
    exact ih (transcodeNode_keysOk t n h)

theorem foldl_frames_keysOk (u : String) (sr : Option Int) :
    ∀ (frames : List Frame) {st : TState},
    srcKeysOk st.sources →
    srcKeysOk ((frames.foldl (transcodeFrame u sr) st).sources) := by
  intro frames
  induction frames with
  | nil => intro st h; exact h
  | cons f rest ih =>
    intro st h
    refine ih ?_
    unfold transcodeFrame
    cases time_to_seconds f.time u sr with
    | error e => exact h
    | ok t => exact foldl_nodes_keysOk t f.nodes h

theorem lookup_LFE_none {sources : List (String × List Keyframe)}
    (h : srcKeysOk sources) : sources.lookup "LFE" = none := by
  induction sources with
  | nil => rfl
  | cons kv rest ih =>
    obtain ⟨k, v⟩ := kv
    have hk : 4 ≤ k.length := h (k, v) (List.mem_cons_self _ _)
    have hne : (("LFE" : String) == k) = false := by
      rw [beq_eq_false_iff_ne]
      intro hc
      rw [← hc] at hk
      exact absurd hk (by decide)
    rw [List.lookup_cons, hne]
    exact ih fun kv hkv => h kv (List.mem_cons_of_mem _ hkv)

theorem lookup_append_self {α β : Type} [BEq α] [LawfulBEq α]
    {l : List (α × β)} {k : α} (h : l.lookup k = none) (v : β) :
    (l ++ [(k, v)]).lookup k = some v := by
  induction l with
  | nil =>
    rw [List.nil_append, List.lookup_cons, beq_self_eq_true]
  | cons kv rest ih =>
    obtain ⟨k0, v0⟩ := kv
    rw [List.lookup_cons] at h
    rw [List.cons_append, List.lookup_cons]
    cases hbeq : (k == k0) with
    | true => rw [hbeq] at h; exact Option.noConfusion h
    | false => rw [hbeq] at h; exact ih h

theorem sourcesSet_lookup_LFE {sources : List (String × List Keyframe)}
    (h : sources.lookup "LFE" = none) (v : List Keyframe) :
    (sourcesSet sources "LFE" v).lookup "LFE" = some v := by
  unfold sourcesSet
  rw [if_neg (fun hc => by rw [h] at hc; exact Bool.noConfusion hc)]
  exact lookup_append_self h v

/-! ## Type-tag and `has_lfe` bridges -/

theorem type_beq_lfe (n : Node) : (n.type == "LFE") = isLfeN n := by
  cases n <;> rfl

theorem has_lfe_any (s : LusidScene) :
    s.has_lfe = s.frames.any fun f => f.nodes.any isLfeN := by
  unfold LusidScene.has_lfe
  congr 1
  funext f
  rw [Frame.get_nodes_by_type]
  cases hany : f.nodes.any isLfeN with
  | true =>
    obtain ⟨n, hn, hlfe⟩ := List.any_eq_true.mp hany
    have hmem : n ∈ f.nodes.filter fun m => m.type == "LFE" := by
      rw [List.mem_filter]
      exact ⟨hn, by rw [type_beq_lfe]; exact hlfe⟩
    have hne := List.ne_nil_of_mem hmem
    simp [List.isEmpty_iff, hne]
  | false =>
    have hnil : (f.nodes.filter fun m => m.type == "LFE") = [] := by
      rw [List.filter_eq_nil_iff]
      intro m hm
      rw [type_beq_lfe]
      intro hc
      have := List.any_eq_true.mpr ⟨m, hm, hc⟩
      rw [hany] at this
      exact Bool.noConfusion this
    simp [List.isEmpty_iff, hnil]

/-! ## Loader lemmas (C4, C7) -/

theorem TIMEUNIT_ALIASES_canonical {s c : String}
    (h : TIMEUNIT_ALIASES s = some c) :
    c = "seconds" ∨ c = "samples" ∨ c = "milliseconds" := by
  unfold TIMEUNIT_ALIASES at h
  split at h <;> first
    | (exact Option.noConfusion h)
    | (injection h with h; subst h; tauto)

theorem normalize_canonical {r u : String} (h : normalize_time_unit r = .ok u) :
    u = "seconds" ∨ u = "samples" ∨ u = "milliseconds" := by
  unfold normalize_time_unit at h
  cases halias : TIMEUNIT_ALIASES (String.mk (stripChars (lowerChars r.data))) with
  | none => rw [halias] at h; exact Except.noConfusion h
  | some c =>
    rw [halias] at h
    injection h with h
    subst h
    exact TIMEUNIT_ALIASES_canonical halias

theorem parseSampleRate_ok {fields : List (String × Json)}
    (h : noBadSampleRate fields = true) :
    ∃ v, parseSampleRate (dgetOpt fields "sampleRate") = .ok v := by
  unfold noBadSampleRate at h
  cases hv : dgetOpt fields "sampleRate" with
  | none => exact ⟨none, rfl⟩
  | some j =>
    rw [hv] at h
    cases j with
    | null => exact ⟨none, rfl⟩
    | bool b => cases b
                · exact ⟨none, rfl⟩
                · exact ⟨some 1, rfl⟩
    | num jn =>
      cases jn with
      | fin q =>
        by_cases hq : q ≤ 0
        · exact ⟨none, by simp [parseSampleRate, hq]⟩
        · exact ⟨some (pyTruncRat q), by simp [parseSampleRate, hq]⟩
      | nan => exact Bool.noConfusion h
      | inf => exact Bool.noConfusion h
      | ninf => exact ⟨none, rfl⟩
    | str s => exact ⟨none, rfl⟩
    | arr xs => exact ⟨none, rfl⟩
    | obj o => exact ⟨none, rfl⟩

/-- The nodes of a parsed frame are exactly the later-wins dedup of the
successfully parsed entries. -/
theorem _parse_frame_nodes {raw : List (String × Json)} {idx : Nat} {f : Frame}
    (h : _parse_frame raw idx = some f) :
    f.nodes = keepLastR ((rawNodesOf raw).filterMap parseNodeEntry) := by
  unfold _parse_frame at h
  cases htv : dgetOpt raw "time" with
  | none => rw [htv] at h; exact Option.noConfusion h
  | some tv =>
    rw [htv] at h
    replace h : (if ¬_is_finite tv = true then none
        else some { time := jsonFloat tv,
                    nodes := (((rawNodesOf raw).filterMap parseNodeEntry).foldl
                      frameStep ([], [])).1 : Frame }) = some f := h
    by_cases hfin : _is_finite tv = true
    · rw [if_neg (by simp [hfin])] at h
      injection h with h
      subst h
      show (((rawNodesOf raw).filterMap parseNodeEntry).foldl frameStep
        ([], [])).1 = _
      rw [frameFold_eq_foldl _ [] [] (by simp)]
      rw [foldl_keepLast_eq _ [] (by simp)]
      rw [List.nil_append]
    · rw [if_pos (by simpa using hfin)] at h
      exact Option.noConfusion h

/-! ## Additional concrete scenes for witnesses -/

/-- The scene `adm_to_lusid_scene` builds from `c6Speakers`/`c6Objects`
with every channel active. -/
def c6Scene : LusidScene :=
  { version := "0.5",
    frames :=
      [{ time := 0,
         nodes :=
           [.directSpeaker { id := "1.1", cart := [-1, 1, 0],
                             speakerLabel := "RC_L", channelID := "" },
            .directSpeaker { id := "2.1", cart := [1, 1, 0],
                             speakerLabel := "RC_R", channelID := "" },
            .directSpeaker { id := "3.1", cart := [0, 1, 0],
                             speakerLabel := "RC_C", channelID := "" },
            .lfe { id := "4.1" },
            .audioObject { id := "5.1", cart := [1/2, 0, 0] }] },
       { time := 10,
         nodes := [.audioObject { id := "5.1", cart := [1/2, 1/2, 0] }] }],
    time_unit := "seconds", sample_rate := some 48000,
    metadata := [("sourceFormat", .str "ADM")] }

/-- The scene built from `c10Objects` with no direct speakers and channel 0
silent: the surviving object carries group 2, not group 1. -/
def c10Scene : LusidScene :=
  { version := "0.5",
    frames := [{ time := 1,
                 nodes := [.audioObject { id := "2.1", cart := [2, 0, 0] }] }],
    time_unit := "seconds", sample_rate := some 48000,
    metadata := [("sourceFormat", .str "ADM")] }

/-- The frame `_parse_frame` produces from `c7Fields`: the later duplicate
survives. -/
def c7Frame : Frame :=
  { time := 0, nodes := [.audioObject { id := "1.1", cart := [0, 1, 0] }] }

/-- Successfully parsed node entries of a frame object. -/
def parsedEntriesOf (raw : List (String × Json)) : List Node :=
  (rawNodesOf raw).filterMap parseNodeEntry

/-! ## Claim theorems -/

/-- C1 (code bug): round-tripping a valid scene through
`LusidScene.to_dict` and the loader loses every `direct_speaker` node —
`_parse_node` (parser.py) has no `direct_speaker` dispatch branch, so the
reloaded scene's direct-speaker group set is empty while the original's is
`[1]` (the frame itself survives, so the frame count still matches).  The
repository's own test `test_direct_speaker_parsed` expects the node to
survive. -/
theorem c1_roundtrip_loses_direct_speakers :
    (parse_json_value (LusidScene.to_dict c1Scene)).map
        LusidScene.direct_speaker_groups = .ok [] ∧
    c1Scene.direct_speaker_groups = [1] ∧
    (parse_json_value (LusidScene.to_dict c1Scene)).map
        LusidScene.frame_count = .ok 1 :=
  ⟨rfl, rfl, rfl⟩

/-- C2 (code bug): a well-formed `direct_speaker` node object — valid id,
valid 3-element finite cart — is dropped by `_parse_node` through the
unknown-type branch; the identical object with `type` set to
`audio_object` is accepted, so nothing but the missing `direct_speaker`
dispatch causes the drop. -/
theorem c2_direct_speaker_dropped_as_unknown :
    _parse_node c2RawDS = none ∧
    (_parse_node c2RawAudio).isSome = true ∧
    _is_valid_node_id "1.1" = true :=
  ⟨rfl, rfl, rfl⟩

/-- C3 (code bug): when the ADM root is locatable the end-to-end builder
reaches `LusidScene(version=..., duration=duration_seconds, ...)`, but the
`LusidScene` dataclass has no `duration` field, so the call raises
`TypeError` instead of returning a scene; the empty-scene fallback (root
not locatable) does return a scene. -/
theorem c3_builder_raises_type_error :
    parse_adm_xml_to_lusid_scene c3XmlWithRoot {} = .error .typeError ∧
    (_find_ebu_root c3XmlWithRoot).isSome = true ∧
    parse_adm_xml_to_lusid_scene c3XmlNoRoot {} =
      .ok { version := "0.5", sample_rate := some 48000 } ∧
    (_find_ebu_root c3XmlNoRoot).isNone = true :=
  ⟨rfl, rfl, rfl, rfl⟩

/-- C4 (counterexample): a syntactically valid JSON value that is not an
object — here the empty array — makes the loader raise `AttributeError`
(`raw.get` on a list), refuting "parsing returns a best-effort Scene and
never raises" for arbitrary JSON values. -/
theorem c4_counterexample :
    parse_json_value (.arr []) = .error .attributeError := rfl

/-- C5 (counterexample): a scene whose only LFE node sits in a frame whose
time cannot be converted (`samples` unit with no sample rate) has
`has_lfe = true`, yet the render output carries no `"LFE"` track: the
frame is skipped before the LFE node is observed. -/
theorem c5_counterexample :
    c5BadScene.has_lfe = true ∧
    ((transcode_to_sonopleth c5BadScene 48000).sources.lookup "LFE") = none :=
  ⟨rfl, rfl⟩

/-- C4 (amended): for every JSON **object** whose `sampleRate` is not a
non-finite number, the loader returns a best-effort scene without raising,
with frames sorted ascending by time and a canonical time unit; a JSON
value that is not an object raises `AttributeError` (a third hard failure
beside the missing file and invalid JSON), and a `sampleRate` of `inf` or
`nan` raises through the unguarded `int()` coercion. -/
theorem c4_loader_totality :
    (∀ fields : List (String × Json), noBadSampleRate fields = true →
      ∃ s, parse_json_value (.obj fields) = .ok s ∧
        s.frames.Pairwise (fun a b => a.time ≤ b.time) ∧
        (s.time_unit = "seconds" ∨ s.time_unit = "samples" ∨
         s.time_unit = "milliseconds")) ∧
    (∀ j : Json, (∀ fields, j ≠ .obj fields) →
      parse_json_value j = .error .attributeError) := by
  constructor
  · intro fields h
    obtain ⟨v, hv⟩ := parseSampleRate_ok h
    have heq : parse_dict fields = .ok
        { version :=
            match dgetOpt fields "version" with
            | none => "0.5"
            | some w => pyStrOfJson w,
          frames := sortFramesByTime
            (((match fields.lookup "frames" with
               | some (.arr l) => l
               | _ => []).enum.filterMap fun iv : Nat × Json =>
                 match iv.2 with
                 | .obj rf => _parse_frame rf iv.1
                 | _ => none)),
          time_unit :=
            match normalize_time_unit
              (match fields.lookup "timeUnit" with
               | none => "seconds"
               | some w => pyStrOfJson w) with
            | .ok u => u
            | .error _ => "seconds",
          sample_rate := v,
          metadata :=
            match fields.lookup "metadata" with
            | none => []
            | some (.obj m) => m
            | some _ => [] } := by
      unfold parse_dict
      rw [hv]
      rfl
    refine ⟨_, heq, sortFramesByTime_sorted _, ?_⟩
    cases hn : normalize_time_unit
        (match fields.lookup "timeUnit" with
         | none => "seconds"
         | some w => pyStrOfJson w) with
    | ok u => exact normalize_canonical hn
    | error e => left; rfl
  · intro j hj
    cases j with
    | obj fields => exact absurd rfl (hj fields)
    | null => rfl
    | bool b => rfl
    | num n => rfl
    | str s => rfl
    | arr xs => rfl

/-- C4 witness: a concrete object with out-of-order frames loads into a
sorted scene, and a concrete non-object input raises. -/
theorem c4_loader_totality_witness :
    noBadSampleRate c4Fields = true ∧
    (∃ s, parse_json_value (.obj c4Fields) = .ok s ∧
      s.frames.Pairwise (fun a b => a.time ≤ b.time) ∧
      (s.time_unit = "seconds" ∨ s.time_unit = "samples" ∨
       s.time_unit = "milliseconds")) ∧
    parse_json_value (.arr [.num (.fin 1)]) = .error .attributeError :=
  ⟨rfl, c4_loader_totality.1 c4Fields rfl,
   c4_loader_totality.2 (.arr [.num (.fin 1)]) fun _ h => Json.noConfusion h⟩

/-- C5 (amended): if any frame whose time converts to seconds holds an LFE
node, the render output's `"LFE"` track is exactly the single keyframe at
time 0 with no cart; if no frame holds an LFE node at all, no `"LFE"` track
is emitted.  (The claim as stated fails only for LFE nodes confined to
frames the transcoder skips — see the counterexample.) -/
theorem c5_lfe_track (scene : LusidScene) (osr : Int) :
    ((∃ f ∈ scene.frames,
        convOk scene.time_unit scene.sample_rate f = true ∧
        f.nodes.any isLfeN = true) →
      ((transcode_to_sonopleth scene osr).sources.lookup "LFE") =
        some [{ time := 0, cart := none }]) ∧
    (scene.has_lfe = false →
      ((transcode_to_sonopleth scene osr).sources.lookup "LFE") = none) := by
  have hkeys : srcKeysOk ((scene.frames.foldl
      (transcodeFrame scene.time_unit scene.sample_rate) {}).sources) :=
    foldl_frames_keysOk _ _ scene.frames (fun kv hkv => absurd hkv (by simp))
  have hflfe := foldl_frames_has_lfe scene.time_unit scene.sample_rate
    scene.frames {}
  have hshow : (transcode_to_sonopleth scene osr).sources =
      (if (scene.frames.foldl
            (transcodeFrame scene.time_unit scene.sample_rate) {}).has_lfe then
        sourcesSet ((scene.frames.foldl
          (transcodeFrame scene.time_unit scene.sample_rate) {}).sources)
          "LFE" [{ time := 0, cart := none }]
      else ((scene.frames.foldl
        (transcodeFrame scene.time_unit scene.sample_rate) {}).sources)) := rfl
  constructor
  · rintro ⟨f, hf, hconv, hlfe⟩
    have hany : (scene.frames.any fun f =>
        convOk scene.time_unit scene.sample_rate f && f.nodes.any isLfeN) =
        true :=
      List.any_eq_true.mpr ⟨f, hf, by simp [hconv, hlfe]⟩
    have htrue : (scene.frames.foldl
        (transcodeFrame scene.time_unit scene.sample_rate) {}).has_lfe = true := by
      rw [hflfe, hany]
      rfl
    rw [hshow, htrue, if_pos rfl]
    exact sourcesSet_lookup_LFE (lookup_LFE_none hkeys) _
  · intro hno
    rw [has_lfe_any] at hno
    have hany : (scene.frames.any fun f =>
        convOk scene.time_unit scene.sample_rate f && f.nodes.any isLfeN) =
        false := by
      rw [Bool.eq_false_iff]
      intro hc
      obtain ⟨f, hf, hcc⟩ := List.any_eq_true.mp hc
      rw [Bool.and_eq_true] at hcc
      have h2 : (scene.frames.any fun f => f.nodes.any isLfeN) = true :=
        List.any_eq_true.mpr ⟨f, hf, hcc.2⟩
      rw [hno] at h2
      exact Bool.noConfusion h2
    have hfalse : (scene.frames.foldl
        (transcodeFrame scene.time_unit scene.sample_rate) {}).has_lfe = false := by
      rw [hflfe, hany]
      rfl
    rw [hshow, hfalse]
    simp only [Bool.false_eq_true, if_false]
    exact lookup_LFE_none hkeys

/-- C5 witness: a concrete scene with an LFE node in a convertible frame
gets exactly the synthetic track. -/
theorem c5_lfe_track_witness :
    (∃ f ∈ c5Scene.frames,
      convOk c5Scene.time_unit c5Scene.sample_rate f = true ∧
      f.nodes.any isLfeN = true) ∧
    ((transcode_to_sonopleth c5Scene 48000).sources.lookup "LFE") =
      some [{ time := 0, cart := none }] :=
  ⟨by decide, (c5_lfe_track c5Scene 48000).1 (by decide)⟩

theorem filterMap_if_true {α β : Type} (l : List α) (p : α → Bool) (f : α → β)
    (h : ∀ a ∈ l, p a = true) :
    (l.filterMap fun a => if p a then some (f a) else none) = l.map f := by
  induction l with
  | nil => rfl
  | cons a rest ih =>
    rw [List.filterMap_cons, List.map_cons]
    rw [if_pos (h a (List.mem_cons_self _ _))]
    rw [ih fun a ha => h a (List.mem_cons_of_mem _ ha)]

theorem flatMap_congr_left {α β : Type} {l : List α} {f g : α → List β}
    (h : ∀ a ∈ l, f a = g a) : l.flatMap f = l.flatMap g := by
  rw [List.flatMap_def, List.flatMap_def]
  exact congrArg List.flatten (List.map_congr_left h)

/-- Under the shipped flag value the LFE test is purely positional. -/
theorem is_lfe_hardcoded (n : String) (i : SpeakerInfo) (k : Nat) :
    _is_lfe_channel _DEV_LFE_HARDCODED n i k = (k == 4) := rfl

/-- C6: with the positional LFE strategy (the shipped
`_DEV_LFE_HARDCODED = True`) and every channel audio-active, the scene's
nodes are exactly: the k-th direct-speaker record (0-based) as group
`k + 1` with hierarchy `.1` — an LFE node when `k + 1 = 4`, a
DirectSpeaker node otherwise — followed by the objects with groups
`N + 1, N + 2, …` in document order (`N` the direct-speaker count); with
4 records this gives DirectSpeakers `1.1`, `2.1`, `3.1`, LFE `4.1`, and
first object group 5. -/
theorem c6_group_numbering
    (ds : List (String × SpeakerInfo)) (objs : List (String × List Block))
    (glob : List (String × String)) (ca : ContainsAudio) (scene : LusidScene)
    (hact : ∀ i : Int, audioGet (_build_channel_audio_map ca) i = true)
    (hne : ∀ p ∈ objs, p.2 ≠ [])
    (hok : adm_to_lusid_scene _DEV_LFE_HARDCODED objs ds glob ca = .ok scene) :
    (sceneNodes scene).Perm
      (((ds.enumFrom 0).map fun ke =>
          if ke.1 + 1 = 4 then Node.lfe { id := mkNodeId (ke.1 + 1) }
          else Node.directSpeaker
            { id := mkNodeId (ke.1 + 1),
              cart := [ke.2.2.x, ke.2.2.y, ke.2.2.z],
              speakerLabel := ke.2.2.speakerLabel,
              channelID := ke.2.2.channelID }) ++
       (objs.enumFrom (ds.length + 1)).flatMap fun ge =>
          ge.2.2.map fun b =>
            Node.audioObject { id := mkNodeId ge.1, cart := [b.x, b.y, b.z] }) := by
  refine (adm_sceneNodes _ _ _ _ _ _ hne hok).trans ?_
  have hstat : buildStaticNodes _DEV_LFE_HARDCODED
      (_build_channel_audio_map ca) ds 0 =
      (ds.enumFrom 0).map fun ke =>
        if ke.1 + 1 = 4 then Node.lfe { id := mkNodeId (ke.1 + 1) }
        else Node.directSpeaker
          { id := mkNodeId (ke.1 + 1),
            cart := [ke.2.2.x, ke.2.2.y, ke.2.2.z],
            speakerLabel := ke.2.2.speakerLabel,
            channelID := ke.2.2.channelID } := by
    rw [buildStaticNodes_eq]
    rw [filterMap_if_true _ _ _ fun ke _ => hact (ke.1 : Int)]
    refine List.map_congr_left ?_
    intro ke _
    rw [is_lfe_hardcoded]
    by_cases h4 : ke.1 + 1 = 4
    · rw [if_pos h4, if_pos (by simpa using h4)]
    · rw [if_neg h4, if_neg (by simpa using h4)]
  have hobj : (objs.enumFrom (ds.length + 1)).flatMap
      (objContrib (_build_channel_audio_map ca)) =
      (objs.enumFrom (ds.length + 1)).flatMap fun ge =>
        ge.2.2.map fun b =>
          Node.audioObject { id := mkNodeId ge.1, cart := [b.x, b.y, b.z] } := by
    refine flatMap_congr_left ?_
    intro ge _
    unfold objContrib
    rw [if_pos (hact _)]
  rw [hstat, hobj]

/-- C6 witness: the Scenario C instance — 4 direct-speaker records, one
object: DirectSpeakers 1.1/2.1/3.1, LFE 4.1, object group 5. -/
theorem c6_group_numbering_witness :
    (∀ p ∈ c6Objects, p.2 ≠ ([] : List Block)) ∧
    adm_to_lusid_scene _DEV_LFE_HARDCODED c6Objects c6Speakers [] {} =
      .ok c6Scene ∧
    (sceneNodes c6Scene).Perm
      (((c6Speakers.enumFrom 0).map fun ke =>
          if ke.1 + 1 = 4 then Node.lfe { id := mkNodeId (ke.1 + 1) }
          else Node.directSpeaker
            { id := mkNodeId (ke.1 + 1),
              cart := [ke.2.2.x, ke.2.2.y, ke.2.2.z],
              speakerLabel := ke.2.2.speakerLabel,
              channelID := ke.2.2.channelID }) ++
       (c6Objects.enumFrom (c6Speakers.length + 1)).flatMap fun ge =>
          ge.2.2.map fun b =>
            Node.audioObject { id := mkNodeId ge.1, cart := [b.x, b.y, b.z] }) :=
  ⟨by decide, by decide,
   c6_group_numbering c6Speakers c6Objects [] {} c6Scene (fun _ => rfl)
     (by decide) (by decide)⟩

/-- C10: the object-loop invariant — every recorded object channel (one
with a non-empty block list) consumes the group number given by its
document position, whether or not its audio-activity predicate holds, and
a silent channel emits no nodes; consequently the emitted object groups
are not renumbered contiguously past a silent channel. -/
theorem c10_silent_object_consumes_group
    (ds : List (String × SpeakerInfo)) (objs : List (String × List Block))
    (glob : List (String × String)) (ca : ContainsAudio) (scene : LusidScene)
    (hne : ∀ p ∈ objs, p.2 ≠ [])
    (hok : adm_to_lusid_scene _DEV_LFE_HARDCODED objs ds glob ca = .ok scene) :
    (sceneNodes scene).Perm
      (buildStaticNodes _DEV_LFE_HARDCODED (_build_channel_audio_map ca) ds 0 ++
       (objs.enumFrom (ds.length + 1)).flatMap fun ge =>
         if audioGet (_build_channel_audio_map ca) ((ge.1 : Int) - 1) then
           ge.2.2.map fun b =>
             Node.audioObject { id := mkNodeId ge.1, cart := [b.x, b.y, b.z] }
         else []) :=
  adm_sceneNodes _ _ _ _ _ _ hne hok

/-- C10 witness: no direct speakers, two recorded objects, channel 0
silent — the sole emitted object carries group 2 (`"2.1"`), not group 1. -/
theorem c10_silent_object_consumes_group_witness :
    (∀ p ∈ c10Objects, p.2 ≠ ([] : List Block)) ∧
    adm_to_lusid_scene _DEV_LFE_HARDCODED c10Objects [] [] c10Audio =
      .ok c10Scene ∧
    (sceneNodes c10Scene).Perm
      (buildStaticNodes _DEV_LFE_HARDCODED (_build_channel_audio_map c10Audio)
        [] 0 ++
       (c10Objects.enumFrom 1).flatMap fun ge =>
         if audioGet (_build_channel_audio_map c10Audio) ((ge.1 : Int) - 1) then
           ge.2.2.map fun b =>
             Node.audioObject { id := mkNodeId ge.1, cart := [b.x, b.y, b.z] }
         else []) ∧
    sceneNodes c10Scene = [.audioObject { id := "2.1", cart := [2, 0, 0] }] :=
  ⟨by decide, by decide,
   c10_silent_object_consumes_group [] c10Objects [] c10Audio c10Scene
     (by decide) (by decide),
   by decide⟩

/-- C7: duplicate node ids within one frame.  For every frame object the
loader accepts: (a) for each id, the frame keeps exactly the last
successfully parsed occurrence of that id; (b) the frame's node count is
the number of distinct ids among the successfully parsed entries; (c) the
node count falls short of the parsed-entry count by exactly the number of
duplicate occurrences. -/
theorem c7_duplicate_ids_keep_last (raw : List (String × Json)) (idx : Nat)
    (f : Frame) (h : _parse_frame raw idx = some f) :
    (∀ i : String, f.nodes.filter (fun n => n.id == i) =
      (((parsedEntriesOf raw).filter fun n => n.id == i).getLast?).toList) ∧
    f.nodes.length = ((parsedEntriesOf raw).map Node.id).dedup.length ∧
    f.nodes.length +
      (((parsedEntriesOf raw).map Node.id).length -
        ((parsedEntriesOf raw).map Node.id).dedup.length) =
      (parsedEntriesOf raw).length := by
  have hn := _parse_frame_nodes h
  rw [show (rawNodesOf raw).filterMap parseNodeEntry = parsedEntriesOf raw
    from rfl] at hn
  refine ⟨?_, ?_, ?_⟩
  · intro i
    rw [hn]
    exact keepLastR_filter_id i _
  · rw [hn]
    exact keepLastR_length _
  · rw [hn, keepLastR_length]
    have hsub : ((parsedEntriesOf raw).map Node.id).dedup.length ≤
        ((parsedEntriesOf raw).map Node.id).length :=
      (List.dedup_sublist _).length_le
    have hlen : ((parsedEntriesOf raw).map Node.id).length =
        (parsedEntriesOf raw).length := List.length_map _ _
    omega

/-- C7 witness: a frame with two parseable `audio_object` entries sharing
id `1.1` keeps only the later one. -/
theorem c7_duplicate_ids_keep_last_witness :
    _parse_frame c7Fields 0 = some c7Frame ∧
    ((∀ i : String, c7Frame.nodes.filter (fun n => n.id == i) =
        (((parsedEntriesOf c7Fields).filter fun n => n.id == i).getLast?).toList) ∧
      c7Frame.nodes.length =
        ((parsedEntriesOf c7Fields).map Node.id).dedup.length ∧
      c7Frame.nodes.length +
        (((parsedEntriesOf c7Fields).map Node.id).length -
          ((parsedEntriesOf c7Fields).map Node.id).dedup.length) =
        (parsedEntriesOf c7Fields).length) :=
  ⟨rfl, c7_duplicate_ids_keep_last c7Fields 0 c7Frame rfl⟩

/-- C8 (counterexample): the claim "the LFE-detection strategy is supplied
per invocation as an explicit parameter, so the scene depends only on the
call's arguments" is false of the code: `_is_lfe_channel` reads the
module-level `_DEV_LFE_HARDCODED` flag (modelled as the builder's first
argument), and two runs with identical call arguments but different module
state produce different scenes — here four speaker records whose second is
labelled `LFE` and whose fourth is not. -/
theorem c8_counterexample :
    ¬ ∀ (flag1 flag2 : Bool) (objs : List (String × List Block))
        (ds : List (String × SpeakerInfo)) (glob : List (String × String))
        (ca : ContainsAudio),
      adm_to_lusid_scene flag1 objs ds glob ca =
        adm_to_lusid_scene flag2 objs ds glob ca := by
  intro h
  have hc := congrArg projTypes (h true false [] c8Speakers [] {})
  revert hc
  decide

/-- C8 (amended): the strategy is module state, not a call parameter; with
the flag's shipped value (`True`) every invocation uses the positional
rule — the decision ignores the speaker name and label entirely and holds
exactly for channel 4. -/
theorem c8_module_flag_positional :
    _DEV_LFE_HARDCODED = true ∧
    (∀ (n1 : String) (i1 : SpeakerInfo) (n2 : String) (i2 : SpeakerInfo)
        (k : Nat),
      _is_lfe_channel _DEV_LFE_HARDCODED n1 i1 k =
        _is_lfe_channel _DEV_LFE_HARDCODED n2 i2 k) ∧
    (∀ (n : String) (i : SpeakerInfo) (k : Nat),
      _is_lfe_channel _DEV_LFE_HARDCODED n i k = true ↔ k = 4) := by
  refine ⟨rfl, fun n1 i1 n2 i2 k => rfl, fun n i k => ?_⟩
  rw [is_lfe_hardcoded]
  exact beq_iff_eq

/-- With a valid string id and the `audio_object` tag, `_parse_node`
defers to `_parse_audio_object`. -/
theorem _parse_node_audio {raw : List (String × Json)} {i : String}
    (hid : dgetOpt raw "id" = some (.str i))
    (hvalid : _is_valid_node_id i = true)
    (hty : dgetOpt raw "type" = some (.str "audio_object")) :
    _parse_node raw = _parse_audio_object i raw := by
  unfold _parse_node
  simp only [hid, hty, pyStrOfJson, hvalid]
  simp

/-- Shape of `_parse_audio_object` once the cart is known to be an
array. -/
theorem _parse_audio_object_arr {raw : List (String × Json)} {node_id : String}
    {xs : List Json} (hc : dgetOpt raw "cart" = some (.arr xs)) :
    _parse_audio_object node_id raw =
      if xs.length < 3 then none
      else if _is_finite (xs.getD 0 .null) && _is_finite (xs.getD 1 .null) &&
          _is_finite (xs.getD 2 .null) then
        some (.audioObject
          { id := node_id,
            cart := [jsonFloat (xs.getD 0 .null), jsonFloat (xs.getD 1 .null),
                     jsonFloat (xs.getD 2 .null)],
            gain :=
              if _is_finite ((raw.lookup "gain").getD (Json.num (.fin 1))) then
                jsonFloat ((raw.lookup "gain").getD (Json.num (.fin 1)))
              else 1 })
      else none := by
  unfold _parse_audio_object
  rw [hc]
  cases raw.lookup "gain" <;> rfl

/-- C9: `_parse_audio_object` accepts any cart that is a JSON array with
at least 3 entries whose first three are finite numbers, building the node
from exactly those three entries (extra entries are silently ignored); the
node is dropped precisely when cart is missing, not an array, shorter than
3, or non-finite among the first three. -/
theorem c9_audio_object_cart_first_three (raw : List (String × Json)) (i : String)
    (hid : dgetOpt raw "id" = some (.str i))
    (hvalid : _is_valid_node_id i = true)
    (hty : dgetOpt raw "type" = some (.str "audio_object")) :
    (∀ xs : List Json, dgetOpt raw "cart" = some (.arr xs) → 3 ≤ xs.length →
      (∀ v ∈ xs.take 3, _is_finite v = true) →
      ∃ g, _parse_node raw = some (.audioObject
        { id := i, cart := (xs.take 3).map jsonFloat, gain := g })) ∧
    ((_parse_node raw).isSome = true →
      ∃ xs : List Json, dgetOpt raw "cart" = some (.arr xs) ∧ 3 ≤ xs.length ∧
        ∀ v ∈ xs.take 3, _is_finite v = true) := by
  rw [_parse_node_audio hid hvalid hty]
  constructor
  · intro xs hc h3 hfin
    obtain ⟨x, ⟨y, ⟨z, ⟨rest, rfl⟩⟩⟩⟩ :
        ∃ x y z rest, xs = x :: y :: z :: rest := by
      match xs, h3 with
      | x :: y :: z :: rest, _ => exact ⟨x, y, z, rest, rfl⟩
    have hx : _is_finite x = true := hfin x (by simp)
    have hy : _is_finite y = true := hfin y (by simp)
    have hz : _is_finite z = true := hfin z (by simp)
    rw [_parse_audio_object_arr hc]
    rw [if_neg (by simp)]
    rw [if_pos (by simp [hx, hy, hz])]
    refine ⟨if _is_finite ((raw.lookup "gain").getD (Json.num (.fin 1))) then
        jsonFloat ((raw.lookup "gain").getD (Json.num (.fin 1)))
      else 1, ?_⟩
    simp
  · intro hs
    cases hc : dgetOpt raw "cart" with
    | none =>
      unfold _parse_audio_object at hs
      rw [hc] at hs
      exact Bool.noConfusion hs
    | some c =>
      cases c with
      | arr xs =>
        rw [_parse_audio_object_arr hc] at hs
        by_cases hlen : xs.length < 3
        · rw [if_pos hlen] at hs
          exact Bool.noConfusion hs
        · have h3 : 3 ≤ xs.length := le_of_not_lt hlen
          obtain ⟨x, ⟨y, ⟨z, ⟨rest, rfl⟩⟩⟩⟩ :
              ∃ x y z rest, xs = x :: y :: z :: rest := by
            match xs, h3 with
            | x :: y :: z :: rest, _ => exact ⟨x, y, z, rest, rfl⟩
          rw [if_neg hlen] at hs
          by_cases hfin : (_is_finite ((x :: y :: z :: rest).getD 0 .null) &&
              _is_finite ((x :: y :: z :: rest).getD 1 .null) &&
              _is_finite ((x :: y :: z :: rest).getD 2 .null)) = true
          · refine ⟨x :: y :: z :: rest, rfl, by simp, ?_⟩
            rw [Bool.and_eq_true, Bool.and_eq_true] at hfin
            intro v hv
            rw [show (x :: y :: z :: rest).take 3 = [x, y, z] from rfl] at hv
            simp only [List.mem_cons] at hv
            rcases hv with rfl | rfl | rfl | hv
            · exact hfin.1.1
            · exact hfin.1.2
            · exact hfin.2
            · simp at hv
          · rw [if_neg hfin] at hs
            exact Bool.noConfusion hs
      | null =>
        unfold _parse_audio_object at hs
        rw [hc] at hs
        exact Bool.noConfusion hs
      | bool b =>
        unfold _parse_audio_object at hs
        rw [hc] at hs
        exact Bool.noConfusion hs
      | num n =>
        unfold _parse_audio_object at hs
        rw [hc] at hs
        exact Bool.noConfusion hs
      | str s =>
        unfold _parse_audio_object at hs
        rw [hc] at hs
        exact Bool.noConfusion hs
      | obj o =>
        unfold _parse_audio_object at hs
        rw [hc] at hs
        exact Bool.noConfusion hs

/-- C9 witness: a 4-element cart is accepted and truncated to its first
three entries. -/
theorem c9_audio_object_cart_first_three_witness :
    dgetOpt c9Raw "id" = some (.str "2.1") ∧
    _is_valid_node_id "2.1" = true ∧
    dgetOpt c9Raw "type" = some (.str "audio_object") ∧
    dgetOpt c9Raw "cart" =
      some (.arr [.num (.fin 1), .num (.fin 2), .num (.fin 3), .num (.fin 4)]) ∧
    (∃ g, _parse_node c9Raw = some (.audioObject
      { id := "2.1",
        cart := (([.num (.fin 1), .num (.fin 2), .num (.fin 3),
                   .num (.fin 4)] : List Json).take 3).map jsonFloat,
        gain := g })) :=
  ⟨rfl, rfl, rfl, rfl,
   (c9_audio_object_cart_first_three c9Raw "2.1" rfl rfl rfl).1
     [.num (.fin 1), .num (.fin 2), .num (.fin 3), .num (.fin 4)] rfl
     (by decide) (by decide)⟩

/-- C8 amended-claim witness: under the shipped flag, channel 4 is LFE
whatever its label, and a channel labelled LFE at position 2 is not. -/
theorem c8_module_flag_positional_witness :
    _is_lfe_channel _DEV_LFE_HARDCODED "Rss" { speakerLabel := "RC_Rss" } 4 =
      true ∧
    ¬_is_lfe_channel _DEV_LFE_HARDCODED "LFE1" { speakerLabel := "RC_LFE" } 2 =
      true :=
  ⟨(c8_module_flag_positional.2.2 "Rss" { speakerLabel := "RC_Rss" } 4).mpr rfl,
   fun hc =>
     absurd ((c8_module_flag_positional.2.2 "LFE1"
       { speakerLabel := "RC_LFE" } 2).mp hc) (by decide)⟩
